import Mathlib

/-!
# Verification of the NCA archive-processing engine (`source/core/nca.c`)

Shallow embedding of the content-archive engine: header decrypt/encrypt,
key-area decrypt, section crypto key selection, XTS sector numbering,
hash-tree patch generation and patch application.

Modelling conventions:
* `u64`/`u32`/`u8` values are modelled as `Nat`.  All arithmetic that the
  claims quantify over is range-limited by explicit hypotheses (sizes and
  offsets bounded by the declared content size), so 64-bit wraparound is
  unreachable and plain `Nat` arithmetic is faithful; the two guarded
  subtractions in the patch merge match C unsigned arithmetic because the
  source only evaluates them under the guard that makes them non-negative.
* 16-byte AES keys and 16-byte identifiers are opaque and modelled as `Nat`.
* SHA-256 digests are modelled by a type parameter `H` together with an
  abstract digest function; theorems that need collision-freeness take an
  injectivity hypothesis.
* The AES primitives (`aes128XtsNintendoCrypt`, AES-CTR, AES-ECB, RSA-PSS)
  live in `aes.c` / `rsa.c`, outside this repository's `src/`; they are
  abstracted as oracle parameters.  Where a claim needs the defining
  property of a primitive (XTS encrypt inverts decrypt under the same key
  and sector) it is taken as a hypothesis and discharged on a concrete
  instance in the witness.
* Byte buffers handed to `memcpy` are modelled as total functions
  `Nat → Nat` (index to byte value) together with explicit sizes, which
  mirrors raw C pointers plus length arguments.
-/

namespace Nca

/-! ## Constants

`nca.h` is not part of `src/`, so the layout constants are modelled.
Values given normatively by the spec (§6): XTS sector size `0x200`,
CTR block size `0x10`, SHA-256 size `0x20`, section-sector multiplier
`0x200`, staging buffer `0x800000`, max flat-SHA256 regions 5,
integrity levels 6, magic constants as big-endian 32-bit integers. -/

/-- `sizeof(NcaHeader)`.  Modelled from the spec: the fixed-size archive
header (`nca.h` is absent from `src/`); the spec fixes it as "length =
header length constant" with two XTS sectors of `0x200` bytes covering it
(`V0` section headers start at sector `start_sector − 2` "but the first 2
are the archive header"), hence `0x400`. -/
def ncaHeaderSize : Nat := 0x400

/-- `sizeof(NcaFsHeader)`.  Modelled from the spec: each of the four
fixed-size section headers occupies one XTS sector (V3 section header `i`
uses sector `2+i`), hence `0x200`. -/
def ncaFsHeaderSize : Nat := 0x200

/-- `NCA_FULL_HEADER_LENGTH`: archive header plus the four section headers. -/
def ncaFullHeaderLength : Nat := ncaHeaderSize + 4 * ncaFsHeaderSize

/-- `NCA_AES_XTS_SECTOR_SIZE`. -/
def ncaAesXtsSectorSize : Nat := 0x200

/-- `AES_BLOCK_SIZE`. -/
def aesBlockSize : Nat := 0x10

/-- `NCA_FS_HEADER_COUNT`. -/
def ncaFsHeaderCount : Nat := 4

/-- `NCA_CRYPTO_BUFFER_SIZE` (8 MiB staging buffer). -/
def ncaCryptoBufferSize : Nat := 0x800000

/-- `NCA_FS_SECTOR_OFFSET(x) = x * 0x200`. -/
def ncaFsSectorOffset (sector : Nat) : Nat := sector * 0x200

/-- `NCA_HIERARCHICAL_SHA256_MAX_REGION_COUNT`. -/
def ncaHierarchicalSha256MaxRegionCount : Nat := 5

/-- `NCA_IVFC_LEVEL_COUNT`. -/
def ncaIvfcLevelCount : Nat := 6

/-- `NCA_IVFC_BLOCK_SIZE(x) = 1 << x`. -/
def ncaIvfcBlockSize (order : Nat) : Nat := 1 <<< order

/-- `SHA256_HASH_SIZE`. -/
def sha256HashSize : Nat := 0x20

/-- `__builtin_bswap32` on a 32-bit value. -/
def bswap32 (n : Nat) : Nat :=
  let b0 := n % 0x100
  let b1 := (n / 0x100) % 0x100
  let b2 := (n / 0x10000) % 0x100
  let b3 := (n / 0x1000000) % 0x100
  b0 * 0x1000000 + b1 * 0x10000 + b2 * 0x100 + b3

/-- `NCA_NCA3_MAGIC`: "NCA3" read big-endian. -/
def ncaNca3Magic : Nat := 0x4E434133

/-- `NCA_NCA2_MAGIC`: "NCA2" read big-endian. -/
def ncaNca2Magic : Nat := 0x4E434132

/-- `NCA_NCA0_MAGIC`: "NCA0" read big-endian. -/
def ncaNca0Magic : Nat := 0x4E434130

/-- `NCA_BKTR_MAGIC`: "BKTR" read big-endian. -/
def ncaBktrMagic : Nat := 0x424B5452

/-- `NCA_BKTR_VERSION`.  Modelled from the spec: the bucket-table version
constant checked during sparse-bucket validation (`nca.h` absent); the
concrete value is irrelevant to every claim, only equality with the
stored field matters. -/
def ncaBktrVersion : Nat := 1

/-! ## Enumerations (values follow the C enums in `nca.h`, reconstructed
from their use in `nca.c`: `NcaEncryptionType_Auto = 0` precedes `None`,
`AesXts`, `AesCtr`, `AesCtrEx`; comparisons in the source are numeric). -/

inductive NcaVersion where
  | nca0
  | nca2
  | nca3
deriving DecidableEq, Repr

inductive NcaEncryptionType where
  | auto
  | none
  | aesXts
  | aesCtr
  | aesCtrEx
deriving DecidableEq, Repr

/-- Numeric value of the C enum, used for order comparisons in guards. -/
def NcaEncryptionType.val : NcaEncryptionType → Nat
  | .auto => 0
  | .none => 1
  | .aesXts => 2
  | .aesCtr => 3
  | .aesCtrEx => 4

/-- Convert a raw header byte into the encryption-type enum; values
outside `1..4` are the ones `ncaInitializeContext` rejects
(`== Auto || > AesCtrEx`). -/
def NcaEncryptionType.ofVal : Nat → Option NcaEncryptionType
  | 1 => some NcaEncryptionType.none
  | 2 => some NcaEncryptionType.aesXts
  | 3 => some NcaEncryptionType.aesCtr
  | 4 => some NcaEncryptionType.aesCtrEx
  | _ => Option.none

/-- `NcaFsType_RomFs` (raw `fs_type` header bytes are `Nat`s since the
on-disk field may hold any value). -/
def ncaFsTypeRomFs : Nat := 0

/-- `NcaFsType_PartitionFs`. -/
def ncaFsTypePartitionFs : Nat := 1

/-- `NcaHashType_HierarchicalSha256`. -/
def ncaHashTypeHierarchicalSha256 : Nat := 2

/-- `NcaHashType_HierarchicalIntegrity`. -/
def ncaHashTypeHierarchicalIntegrity : Nat := 3

/-- `NcmContentType_DeltaFragment`. -/
def ncmContentTypeDeltaFragment : Nat := 6

inductive NcaFsSectionType where
  | partitionFs
  | romFs
  | patchRomFs
  | nca0RomFs
  | invalid
deriving DecidableEq, Repr

/-! ## XTS sector numbering (claim C1)

The source computes the XTS sector number for section headers with the
same expression in `ncaReadDecryptedHeader` (line 674) and
`ncaEncryptHeader` (line 507), and the sector number for payload reads
inside `_ncaReadFsSection` (lines 871 and 912) and
`_ncaGenerateEncryptedFsSectionBlock` (lines 1297 and 1349). -/

/-- Source expression (nca.c:674 and nca.c:507):
`sector = (format == NCA3 ? (2U + i) : (format == NCA2 ? 0 : (fs_info->start_sector - 2)))`. -/
def ncaFsHeaderXtsSector (version : NcaVersion) (i startSector : Nat) : Nat :=
  if version = NcaVersion.nca3 then 2 + i
  else if version = NcaVersion.nca2 then 0
  else startSector - 2

/-- Source expression (nca.c:871, 912):
`sector_num = ((format != NCA0 ? offset : (content_offset - sizeof(NcaHeader))) / NCA_AES_XTS_SECTOR_SIZE)`
with `content_offset = section_offset + offset`. -/
def ncaFsSectionXtsSector (version : NcaVersion) (sectionOffset offset : Nat) : Nat :=
  (if version ≠ NcaVersion.nca0 then offset
   else (sectionOffset + offset) - ncaHeaderSize) / ncaAesXtsSectorSize

/-- The spec's sector law for section headers, stated from the spec's
words: "for V3, section-header *i* uses XTS sector `2+i`; V2 uses 0; V0
uses `start_sector − 2`". -/
def specFsHeaderSectorLaw (version : NcaVersion) (i startSector : Nat) : Nat :=
  match version with
  | .nca3 => 2 + i
  | .nca2 => 0
  | .nca0 => startSector - 2

/-- The spec's sector law for payload reads, stated from the spec's
words: "`(content_offset − header_length)/0x200` for V0 payload reads"
and "else: `offset/0x200`". -/
def specFsSectionSectorLaw (version : NcaVersion) (contentOffset offset : Nat) : Nat :=
  match version with
  | .nca0 => (contentOffset - ncaHeaderSize) / 0x200
  | _ => offset / 0x200

/-- C1: the XTS sector numbers computed by the source agree with the
spec's sector law: for a V3 archive section header `i` uses sector `2+i`,
V2 uses sector 0, V0 uses `start_sector − 2`; and payload reads use
`(content_offset − header_length)/0x200` for V0 and `offset/0x200`
otherwise. -/
theorem xts_sector_law (version : NcaVersion) (i startSector sectionOffset offset : Nat) :
    ncaFsHeaderXtsSector version i startSector = specFsHeaderSectorLaw version i startSector ∧
    ncaFsSectionXtsSector version sectionOffset offset =
      specFsSectionSectorLaw version (sectionOffset + offset) offset := by
  constructor
  · cases version <;> simp [ncaFsHeaderXtsSector, specFsHeaderSectorLaw]
  · cases version <;>
      simp [ncaFsSectionXtsSector, specFsSectionSectorLaw, ncaAesXtsSectorSize]

/-! ## Key area (claims C3, C6)

The key area is a 4 × 16-byte array inside the archive header.  Each
16-byte key is modelled as an opaque `Nat`; the all-zero key is `0`.
Slot semantics (spec §3): slot 0 = XTS key-1, slot 1 = XTS key-2,
slot 2 = CTR key, slot 3 = CTR-Ex key. -/

structure KeyArea where
  aes_xts_1 : Nat
  aes_xts_2 : Nat
  aes_ctr : Nat
  aes_ctr_ex : Nat
deriving DecidableEq, Repr

/-- Slot `i` of the key area, as addressed by `(u8*)&key_area + i*16`. -/
def KeyArea.get (ka : KeyArea) : Nat → Nat
  | 0 => ka.aes_xts_1
  | 1 => ka.aes_xts_2
  | 2 => ka.aes_ctr
  | _ => ka.aes_ctr_ex

/-- Write slot `i` of the key area. -/
def KeyArea.set (ka : KeyArea) (i v : Nat) : KeyArea :=
  match i with
  | 0 => { ka with aes_xts_1 := v }
  | 1 => { ka with aes_xts_2 := v }
  | 2 => { ka with aes_ctr := v }
  | _ => { ka with aes_ctr_ex := v }

/-- The all-zero key area (`memset(..., 0, NCA_USED_KEY_AREA_SIZE)`). -/
def KeyArea.zero : KeyArea := ⟨0, 0, 0, 0⟩

/-- `ncaIsVersion0KeyAreaEncrypted` (nca.c:794-801): hashes the *stored*
(in-header) key area and compares against `g_nca0KeyAreaHash`; returns
`true` when the hash **differs** from the marker.  `h` abstracts
`sha256CalculateHash` over the `NCA_USED_KEY_AREA_SIZE` bytes and
`marker` abstracts the `g_nca0KeyAreaHash` constant. -/
def ncaIsVersion0KeyAreaEncrypted {H : Type} (h : KeyArea → H) (marker : H)
    [DecidableEq H] (version : NcaVersion) (stored : KeyArea) : Bool :=
  version = NcaVersion.nca0 ∧ h stored ≠ marker

/-- One pass of the `ncaDecryptKeyArea` slot loop (nca.c:709-723):
null slots stay zero, non-null slots go through
`keysDecryptNcaKeyAreaEntry`, whose failure aborts the whole call.
`kaekDecrypt kaek_index key_generation src` abstracts the key provider. -/
def ncaKeyAreaSlotLoop (kaekDecrypt : Nat → Nat → Nat → Option Nat)
    (kaekIndex keyGeneration : Nat) (stored : KeyArea) :
    List Nat → KeyArea → Option KeyArea
  | [], acc => some acc
  | i :: rest, acc =>
    if stored.get i = 0 then
      ncaKeyAreaSlotLoop kaekDecrypt kaekIndex keyGeneration stored rest acc
    else
      match kaekDecrypt kaekIndex keyGeneration (stored.get i) with
      | Option.none => Option.none
      | some k =>
        ncaKeyAreaSlotLoop kaekDecrypt kaekIndex keyGeneration stored rest (acc.set i k)

/-- `ncaDecryptKeyArea` (nca.c:687-726).  `key_count` is 2 for NCA0 and 4
otherwise; if `ncaIsVersion0KeyAreaEncrypted` holds the stored key area
is copied verbatim into the decrypted key area, else the decrypted area
is cleared and each non-null slot is decrypted with the KAEK resolved by
`(kaek_index, key_generation)`. -/
def ncaDecryptKeyArea {H : Type} [DecidableEq H] (h : KeyArea → H) (marker : H)
    (kaekDecrypt : Nat → Nat → Nat → Option Nat)
    (version : NcaVersion) (kaekIndex keyGeneration : Nat)
    (stored : KeyArea) : Option KeyArea :=
  let keyCount := if version = NcaVersion.nca0 then 2 else 4
  if ncaIsVersion0KeyAreaEncrypted h marker version stored then
    some stored
  else
    ncaKeyAreaSlotLoop kaekDecrypt kaekIndex keyGeneration stored
      ((List.range 4).take keyCount) KeyArea.zero

/-- `ncaEncryptKeyArea` (nca.c:728-775).  Mirrors the decryption: the
plaintext-detection check is evaluated on the *stored* key area of the
current header; otherwise every non-null decrypted slot is AES-128-ECB
encrypted with the KAEK (`ecbEncrypt kaek src`), which must be
resolvable. -/
def ncaEncryptKeyArea {H : Type} [DecidableEq H] (h : KeyArea → H) (marker : H)
    (kaekLookup : Nat → Nat → Option Nat) (ecbEncrypt : Nat → Nat → Nat)
    (version : NcaVersion) (kaekIndex keyGeneration : Nat)
    (stored decrypted : KeyArea) : Option KeyArea :=
  if ncaIsVersion0KeyAreaEncrypted h marker version stored then
    some decrypted
  else
    match kaekLookup kaekIndex keyGeneration with
    | Option.none => Option.none
    | some kaek =>
      let keyCount := if version = NcaVersion.nca0 then 2 else 4
      some (((List.range 4).take keyCount).foldl
        (fun acc i => if decrypted.get i = 0 then acc else acc.set i (ecbEncrypt kaek (decrypted.get i)))
        KeyArea.zero)

/-! ## Header data model (claims C2, C7, C8, C9)

`NcaHeader` / `NcaFsHeader` mirror the on-disk structures.  The XTS
primitive reads and writes these structures byte-for-byte in the source
(`aes128XtsNintendoCrypt` crypts straight between `ctx->encrypted_header`
and `ctx->header`, both of type `NcaHeader`), so ciphertext and plaintext
share the structure type and the cipher is an abstract family of
permutations on it, indexed by the two XTS keys and the start sector. -/

structure NcaFsInfo where
  start_sector : Nat
  end_sector : Nat
  hash_sector : Nat
  reserved : Nat
deriving DecidableEq, Repr

/-- `ncaIsFsInfoEntryValid` (nca.c:588-593): `memcmp` against an
all-zero `NcaFsInfo`. -/
def NcaFsInfo.valid (fi : NcaFsInfo) : Bool := fi ≠ ⟨0, 0, 0, 0⟩

structure NcaBucketInfo where
  magic : Nat
  version : Nat
  entry_count : Nat
  offset : Nat
  size : Nat
deriving DecidableEq, Repr

structure NcaSparseInfo where
  generation : Nat
  physical_offset : Nat
  bucket : NcaBucketInfo
deriving DecidableEq, Repr

structure NcaRegion where
  offset : Nat
  size : Nat
deriving DecidableEq, Repr

structure NcaHierarchicalSha256Data (H : Type) where
  master_hash : H
  hash_block_size : Nat
  hash_region_count : Nat
  hash_region : List NcaRegion
deriving DecidableEq, Repr

structure NcaIvfcLevelInformation where
  offset : Nat
  size : Nat
  block_order : Nat
deriving DecidableEq, Repr

structure NcaIntegrityMetaInfo (H : Type) where
  max_level_count : Nat
  level_information : List NcaIvfcLevelInformation
  master_hash : H
deriving DecidableEq, Repr

/-- The `NcaHashData` union; the source only ever reads the view selected
by `hash_type`, so the union is modelled as a product of both views. -/
structure NcaHashData (H : Type) where
  hierarchical_sha256_data : NcaHierarchicalSha256Data H
  integrity_meta_info : NcaIntegrityMetaInfo H
deriving DecidableEq, Repr

structure NcaFsHeader (H : Type) where
  fs_type : Nat
  hash_type : Nat
  encryption_type : Nat
  hash_data : NcaHashData H
  aes_ctr_upper_iv : Nat
  sparse_info : NcaSparseInfo
deriving DecidableEq, Repr

structure NcaHeader (H : Type) where
  main_signature : Nat
  magic : Nat
  distribution_type : Nat
  key_generation_old : Nat
  kaek_index : Nat
  content_size : Nat
  rights_id : Nat
  key_generation : Nat
  main_signature_key_generation : Nat
  encrypted_key_area : KeyArea
  fs_info : List NcaFsInfo
  fs_header_hash : List H
deriving DecidableEq, Repr

/-- Per-section context (`NcaFsSectionContext`).  Section headers are
`Option`-valued: `Option.none` models a slot whose header memory was never
filled (all-zero after the `memset` in `ncaInitializeContext`). -/
structure NcaFsSectionContext (H : Type) where
  header : Option (NcaFsHeader H) := Option.none
  encrypted_header : Option (NcaFsHeader H) := Option.none
  section_num : Nat := 0
  section_offset : Nat := 0
  section_size : Nat := 0
  section_type : NcaFsSectionType := NcaFsSectionType.invalid
  encryption_type : NcaEncryptionType := NcaEncryptionType.auto
  has_sparse_layer : Bool := false
  sparse_table_offset : Nat := 0
  sparse_table_size : Nat := 0
  ctr_key : Option Nat := Option.none
  xts_keys : Option (Nat × Nat) := Option.none
  sparse_ctr_key : Option Nat := Option.none
  enabled : Bool := false
  header_written : Bool := false
deriving DecidableEq, Repr

/-- Archive context (`NcaContext`), restricted to the fields the engine
core reads or writes. -/
structure NcaContext (H : Type) where
  content_id : Nat
  content_type : Nat
  hash : Nat := 0
  content_size : Nat
  format_version : NcaVersion
  key_generation : Nat
  rights_id_available : Bool
  titlekey_retrieved : Bool := false
  titlekey : Nat := 0
  header : NcaHeader H
  encrypted_header : NcaHeader H
  header_hash : H
  valid_main_signature : Bool
  decrypted_key_area : KeyArea
  fs_ctx : List (NcaFsSectionContext H)
  header_written : Bool := false
deriving DecidableEq, Repr

/-- The crypto primitives and the key provider consumed by the engine
(`aes.c`, `rsa.c`, `keys.c` — external collaborators outside `src/`). -/
structure CryptoOracles (H : Type) where
  sha256Header : NcaHeader H → H
  sha256FsHeader : NcaFsHeader H → H
  sha256KeyArea : KeyArea → H
  nca0KeyAreaHash : H
  xtsHdrDecrypt : Nat → Nat → Nat → NcaHeader H → NcaHeader H
  xtsHdrEncrypt : Nat → Nat → Nat → NcaHeader H → NcaHeader H
  xtsFsDecrypt : Nat → Nat → Nat → NcaFsHeader H → NcaFsHeader H
  xtsFsEncrypt : Nat → Nat → Nat → NcaFsHeader H → NcaFsHeader H
  headerKey : Option (Nat × Nat)
  kaekDecrypt : Nat → Nat → Nat → Option Nat
  kaekLookup : Nat → Nat → Option Nat
  ecbEncrypt : Nat → Nat → Nat
  mainSignatureModulus : Nat → Option Nat
  rsaVerify : NcaHeader H → Nat → Nat → Nat → Bool

/-- `g_ncaHeaderMainSignaturePublicExponent = { 0x01, 0x00, 0x01 }`,
read as the integer `0x010001`. -/
def ncaHeaderMainSignaturePublicExponent : Nat := 0x010001

/-- The block reader over the raw archive bytes.  Struct-granularity
reads deliver the fixed-size headers; `Option.none` models a block-reader
failure. -/
structure Storage (H : Type) where
  headerBytes : Option (NcaHeader H)
  fsHeaderBytesAt : Nat → Option (NcaFsHeader H)
  bytesAt : Nat → Nat → Option (Nat → Nat)

/-- `ncaVerifyMainSignature` (nca.c:777-792): resolve the modulus for
`main_signature_key_generation` (unavailable ⇒ `false`), then RSA-2048
PSS-SHA-256 verify the signed region with public exponent
`{0x01, 0x00, 0x01}`. -/
def ncaVerifyMainSignature {H : Type} (co : CryptoOracles H) (hdr : NcaHeader H) : Bool :=
  match co.mainSignatureModulus hdr.main_signature_key_generation with
  | Option.none => false
  | some modulus =>
    co.rsaVerify hdr hdr.main_signature modulus ncaHeaderMainSignaturePublicExponent

/-- `ncaGetKeyGenerationValue` (nca.c:803-807). -/
def ncaGetKeyGenerationValue {H : Type} (hdr : NcaHeader H) : Nat :=
  if hdr.key_generation > hdr.key_generation_old then hdr.key_generation
  else hdr.key_generation_old

/-- `ncaCheckRightsIdAvailability` (nca.c:809-819): any non-zero byte in
the 16-byte rights id (the id is opaque, so: non-zero value). -/
def ncaCheckRightsIdAvailability {H : Type} (hdr : NcaHeader H) : Bool :=
  hdr.rights_id ≠ 0

/-- On-disk offset of section header `i` (nca.c:662): contiguous after
the archive header for NCA2/NCA3, at the section's start sector for NCA0. -/
def ncaFsHeaderOffset (version : NcaVersion) (i startSector : Nat) : Nat :=
  if version ≠ NcaVersion.nca0 then ncaHeaderSize + i * ncaFsHeaderSize
  else ncaFsSectorOffset startSector

/-- One slot of the section-header read loop (nca.c:653-682).  Outer
`Option`: hard failure of `ncaReadDecryptedHeader`; inner `Option`:
whether the slot is populated.  The result pair is
`(fs_ctx->header, fs_ctx->encrypted_header)`.  The content-file read
enforces `offset + read_size ≤ content_size` (nca.c:312-313). -/
def ncaReadFsSlot {H : Type} [DecidableEq H] (co : CryptoOracles H) (st : Storage H)
    (version : NcaVersion) (contentSize : Nat) (hk : Nat × Nat) (dka : KeyArea)
    (fi : NcaFsInfo) (i : Nat) : Option (Option (NcaFsHeader H × NcaFsHeader H)) :=
  if ¬ fi.valid then some Option.none
  else
    let off := ncaFsHeaderOffset version i fi.start_sector
    if off + ncaFsHeaderSize > contentSize then Option.none
    else
      match st.fsHeaderBytesAt off with
      | Option.none => Option.none
      | some cipher =>
        let k1 := if version ≠ NcaVersion.nca0 then hk.1 else dka.aes_xts_1
        let k2 := if version ≠ NcaVersion.nca0 then hk.2 else dka.aes_xts_2
        let sector := ncaFsHeaderXtsSector version i fi.start_sector
        some (some (co.xtsFsDecrypt k1 k2 sector cipher, cipher))

/-- `ncaReadDecryptedHeader` (nca.c:595-685): read and XTS-decrypt the
archive header with the header key at sector 0, validate magic and
declared size, fill version / key generation / rights id / header hash /
main-signature flag, decrypt the key area when no rights id is present,
then read and decrypt each populated section header (header key for
NCA2/NCA3; the archive's decrypted key-area XTS pair for NCA0).
`contentId`/`contentType` seed the corresponding context fields filled
earlier by `ncaInitializeContext`. -/
def ncaReadDecryptedHeader {H : Type} [DecidableEq H] (co : CryptoOracles H)
    (st : Storage H) (contentId contentType contentSize : Nat) :
    Option (NcaContext H) :=
  if contentSize < ncaFullHeaderLength then Option.none
  else
    co.headerKey.bind fun hk =>
    st.headerBytes.bind fun encHdr =>
    let hdr := co.xtsHdrDecrypt hk.1 hk.2 0 encHdr
    let magic := bswap32 hdr.magic
    if ¬ (magic = ncaNca3Magic ∨ magic = ncaNca2Magic ∨ magic = ncaNca0Magic) ∨
        hdr.content_size ≠ contentSize then Option.none
    else
      let version := if magic = ncaNca3Magic then NcaVersion.nca3
                     else if magic = ncaNca2Magic then NcaVersion.nca2
                     else NcaVersion.nca0
      let keyGeneration := ncaGetKeyGenerationValue hdr
      let rightsAvailable := ncaCheckRightsIdAvailability hdr
      (if ¬ rightsAvailable then
          ncaDecryptKeyArea co.sha256KeyArea co.nca0KeyAreaHash co.kaekDecrypt
            version hdr.kaek_index keyGeneration hdr.encrypted_key_area
        else some KeyArea.zero).bind fun dka =>
      (ncaReadFsSlot co st version contentSize hk dka (hdr.fs_info.getD 0 ⟨0,0,0,0⟩) 0).bind fun s0 =>
      (ncaReadFsSlot co st version contentSize hk dka (hdr.fs_info.getD 1 ⟨0,0,0,0⟩) 1).bind fun s1 =>
      (ncaReadFsSlot co st version contentSize hk dka (hdr.fs_info.getD 2 ⟨0,0,0,0⟩) 2).bind fun s2 =>
      (ncaReadFsSlot co st version contentSize hk dka (hdr.fs_info.getD 3 ⟨0,0,0,0⟩) 3).bind fun s3 =>
      some {
        content_id := contentId
        content_type := contentType
        content_size := contentSize
        format_version := version
        key_generation := keyGeneration
        rights_id_available := rightsAvailable
        header := hdr
        encrypted_header := encHdr
        header_hash := co.sha256Header hdr
        valid_main_signature := ncaVerifyMainSignature co hdr
        decrypted_key_area := dka
        fs_ctx := [s0, s1, s2, s3].map (fun s =>
          { header := s.map Prod.fst, encrypted_header := s.map Prod.snd }) }

/-- One slot of the section-header encrypt loop (nca.c:494-515): an
unpopulated `fs_info` entry is skipped (the slot keeps its previous
contents); a populated one has its plaintext header re-encrypted with the
per-format sector number and XTS key.  A populated slot whose header was
never materialised cannot occur after `ncaReadDecryptedHeader` and is
modelled as a failure. -/
def ncaEncryptFsSlot {H : Type} [DecidableEq H] (co : CryptoOracles H)
    (version : NcaVersion) (hk : Nat × Nat) (dka : KeyArea) (fi : NcaFsInfo) (i : Nat)
    (slot : NcaFsSectionContext H) : Option (NcaFsSectionContext H) :=
  if ¬ fi.valid then some slot
  else
    match slot.header with
    | Option.none => Option.none
    | some plain =>
      let k1 := if version ≠ NcaVersion.nca0 then hk.1 else dka.aes_xts_1
      let k2 := if version ≠ NcaVersion.nca0 then hk.2 else dka.aes_xts_2
      let sector := ncaFsHeaderXtsSector version i fi.start_sector
      some { slot with encrypted_header := some (co.xtsFsEncrypt k1 k2 sector plain) }

/-- The unconditional part of `ncaEncryptHeader` (nca.c:470-517):
re-encrypt the archive header with the header key at sector 0 and each
populated section header with the per-format sector numbering (and, for
NCA0, the key-area XTS pair). -/
def ncaEncryptHeaderCompute {H : Type} [DecidableEq H] (co : CryptoOracles H)
    (ctx : NcaContext H) : Option (NcaContext H) :=
  co.headerKey.bind fun hk =>
  let encHdr := co.xtsHdrEncrypt hk.1 hk.2 0 ctx.header
  (ncaEncryptFsSlot co ctx.format_version hk ctx.decrypted_key_area
      (ctx.header.fs_info.getD 0 ⟨0,0,0,0⟩) 0 (ctx.fs_ctx.getD 0 {})).bind fun t0 =>
  (ncaEncryptFsSlot co ctx.format_version hk ctx.decrypted_key_area
      (ctx.header.fs_info.getD 1 ⟨0,0,0,0⟩) 1 (ctx.fs_ctx.getD 1 {})).bind fun t1 =>
  (ncaEncryptFsSlot co ctx.format_version hk ctx.decrypted_key_area
      (ctx.header.fs_info.getD 2 ⟨0,0,0,0⟩) 2 (ctx.fs_ctx.getD 2 {})).bind fun t2 =>
  (ncaEncryptFsSlot co ctx.format_version hk ctx.decrypted_key_area
      (ctx.header.fs_info.getD 3 ⟨0,0,0,0⟩) 3 (ctx.fs_ctx.getD 3 {})).bind fun t3 =>
  some { ctx with encrypted_header := encHdr, fs_ctx := [t0, t1, t2, t3] }

/-! ## Context initialization (claims C6, C7, C8) -/

/-- The crypto-initialization block of the FS-section loop
(nca.c:253-296), expressed as the working keys the created AES contexts
hold: `(ctr_key, xts_keys, sparse_ctr_key)`.  With a rights id (and a
retrieved titlekey) AES-128-CTR keyed by the titlekey is always used;
otherwise XTS sections get the key-area XTS pair and CTR / CTR-Ex
sections alike get the key-area CTR key (the commented-out source block
that would have keyed CTR-Ex from slot 3 is dead code). -/
def ncaSectionCryptoKeys (rights retrieved : Bool) (titlekey : Nat) (dka : KeyArea)
    (encType : NcaEncryptionType) (hasSparse : Bool) :
    Option Nat × Option (Nat × Nat) × Option Nat :=
  if (¬ rights ∨ (rights ∧ retrieved)) ∧ encType.val > NcaEncryptionType.none.val ∧
      encType.val ≤ NcaEncryptionType.aesCtrEx.val then
    if rights then
      -- AES-128-CTR is always used for FS crypto in NCAs with a rights ID.
      (some titlekey, Option.none, if hasSparse then some titlekey else Option.none)
    else if encType = NcaEncryptionType.aesXts then
      (Option.none, some (dka.aes_xts_1, dka.aes_xts_2), Option.none)
    else if encType = NcaEncryptionType.aesCtr ∨ encType = NcaEncryptionType.aesCtrEx then
      -- Patch RomFS sections also use the AES-128-CTR key from the decrypted key area.
      (some dka.aes_ctr, Option.none, if hasSparse then some dka.aes_ctr else Option.none)
    else (Option.none, Option.none, Option.none)
  else (Option.none, Option.none, Option.none)

/-- One slot of the FS-section parsing loop in `ncaInitializeContext`
(nca.c:166-303).  Every `continue` in the source leaves the slot with
`enabled = false` and whatever fields were filled so far. -/
def ncaSectionInit {H : Type} [DecidableEq H] (co : CryptoOracles H)
    (ctx : NcaContext H) (i : Nat) : NcaFsSectionContext H :=
  let fi := ctx.header.fs_info.getD i ⟨0, 0, 0, 0⟩
  let slot := ctx.fs_ctx.getD i {}
  let hasSparse : Bool :=
    match slot.header with
    | some ph => ph.sparse_info.generation ≠ 0
    | Option.none => false
  -- State of the slot at each `continue` exit of the source loop, as a
  -- function of the fields filled so far.  (On the invalid-encryption-tag
  -- exit the source leaves the raw out-of-range byte in
  -- `fs_ctx->encryption_type`; the enum-typed model records `auto` there —
  -- both stand for "unresolvable", and the slot is disabled.)
  let disabled := fun (so ss : Nat) (stype : NcaFsSectionType) (enc : NcaEncryptionType) =>
    ({ header := slot.header, encrypted_header := slot.encrypted_header,
       section_num := i, section_offset := so, section_size := ss,
       section_type := stype, encryption_type := enc,
       has_sparse_layer := hasSparse } : NcaFsSectionContext H)
  -- Don't proceed if this NCA FS section isn't populated.
  if ¬ fi.valid then disabled 0 0 NcaFsSectionType.invalid NcaEncryptionType.auto
  else
    match slot.header with
    | Option.none =>
      -- A populated fs_info whose section header was never materialised
      -- cannot occur after `ncaReadDecryptedHeader`.
      disabled 0 0 NcaFsSectionType.invalid NcaEncryptionType.auto
    | some ph =>
      -- Don't proceed if there's a checksum mismatch.
      if co.sha256FsHeader ph ≠ ctx.header.fs_header_hash.getD i (co.sha256FsHeader ph) then
        disabled 0 0 NcaFsSectionType.invalid NcaEncryptionType.auto
      else
        let sectionOffset := ncaFsSectorOffset fi.start_sector
        let sectionSize := ncaFsSectorOffset fi.end_sector - sectionOffset
        -- Check if we're dealing with an invalid start offset or an empty size.
        if sectionOffset < ncaHeaderSize ∨ sectionSize = 0 then
          disabled sectionOffset sectionSize NcaFsSectionType.invalid NcaEncryptionType.auto
        else
          let rawEnc := if ctx.format_version = NcaVersion.nca0 then 2 else ph.encryption_type
          let rawEnc :=
            if rawEnc = 0 then
              -- switch(section_num): 0 ExeFS / 1 RomFS: AES-CTR; 2 Logo: None;
              -- default: left at Auto.
              (if i = 0 then 3 else if i = 1 then 3 else if i = 2 then 1 else 0)
            else rawEnc
          -- Check if we're dealing with an invalid encryption type value.
          match NcaEncryptionType.ofVal rawEnc with
          | Option.none =>
            disabled sectionOffset sectionSize NcaFsSectionType.invalid NcaEncryptionType.auto
          | some encType =>
            let sectionType :=
              if ph.fs_type = ncaFsTypePartitionFs ∧
                  ph.hash_type = ncaHashTypeHierarchicalSha256 then
                NcaFsSectionType.partitionFs
              else if ph.fs_type = ncaFsTypeRomFs ∧
                  ph.hash_type = ncaHashTypeHierarchicalIntegrity then
                (if encType = NcaEncryptionType.aesCtrEx then NcaFsSectionType.patchRomFs
                 else NcaFsSectionType.romFs)
              else if ph.fs_type = ncaFsTypeRomFs ∧
                  ph.hash_type = ncaHashTypeHierarchicalSha256 ∧
                  ctx.format_version = NcaVersion.nca0 then
                NcaFsSectionType.nca0RomFs
              else NcaFsSectionType.invalid
            -- Check if we're dealing with an invalid section type value.
            if sectionType = NcaFsSectionType.invalid then
              disabled sectionOffset sectionSize NcaFsSectionType.invalid encType
            else
              let sparseOk :=
                if hasSparse then
                  let rawStorageOffset := ph.sparse_info.physical_offset
                  let rawStorageSize := ph.sparse_info.bucket.offset + ph.sparse_info.bucket.size
                  if bswap32 ph.sparse_info.bucket.magic ≠ ncaBktrMagic ∨
                      ph.sparse_info.bucket.version ≠ ncaBktrVersion ∨
                      rawStorageOffset < ncaHeaderSize ∨ rawStorageSize = 0 ∨
                      rawStorageOffset + rawStorageSize > ctx.content_size ∨
                      ph.sparse_info.bucket.entry_count = 0 then Option.none
                  else some (rawStorageOffset + ph.sparse_info.bucket.offset,
                             ph.sparse_info.bucket.size)
                else
                  -- Check if we're within boundaries.
                  if sectionOffset + sectionSize > ctx.content_size then Option.none
                  else some (0, 0)
              match sparseOk with
              | Option.none =>
                disabled sectionOffset sectionSize sectionType encType
              | some (sparseTableOffset, sparseTableSize) =>
                -- Initialize crypto data (nca.c:253-296); AES context creation
                -- cannot fail, so it never gates enablement.  The created
                -- contexts are recorded through the keys they hold.
                let keys := ncaSectionCryptoKeys ctx.rights_id_available
                  ctx.titlekey_retrieved ctx.titlekey ctx.decrypted_key_area
                  encType hasSparse
                { header := slot.header, encrypted_header := slot.encrypted_header,
                  section_num := i, section_offset := sectionOffset,
                  section_size := sectionSize, section_type := sectionType,
                  encryption_type := encType, has_sparse_layer := hasSparse,
                  sparse_table_offset := sparseTableOffset,
                  sparse_table_size := sparseTableSize,
                  ctr_key := keys.1, xts_keys := keys.2.1,
                  sparse_ctr_key := keys.2.2,
                  enabled := true }

/-- Attach the ticket-lookup outcome to a freshly read context
(nca.c:148-163): with a rights id present, a resolvable ticket stores the
decrypted titlekey; an unresolvable one only logs. -/
def ncaApplyTicket {H : Type} (ctx : NcaContext H) (ticket : Option Nat) : NcaContext H :=
  if ctx.rights_id_available then
    match ticket with
    | some tk => { ctx with titlekey_retrieved := true, titlekey := tk }
    | Option.none => ctx
  else ctx

/-- `ncaInitializeContext` (nca.c:91-308), storage plumbing elided:
validate the content type and declared size, read the decrypted headers,
resolve the ticket when a rights id is present, parse the four FS
sections, and succeed iff at least one section is valid. -/
def ncaInitializeContext {H : Type} [DecidableEq H] (co : CryptoOracles H)
    (st : Storage H) (contentId contentType contentSize : Nat)
    (ticket : Option Nat) : Option (NcaContext H) :=
  if contentType > ncmContentTypeDeltaFragment then Option.none
  else if contentSize < ncaFullHeaderLength then Option.none
  else
    match ncaReadDecryptedHeader co st contentId contentType contentSize with
    | Option.none => Option.none
    | some ctx0 =>
      let ctx1 := ncaApplyTicket ctx0 ticket
      let newFs := [ncaSectionInit co ctx1 0, ncaSectionInit co ctx1 1,
                    ncaSectionInit co ctx1 2, ncaSectionInit co ctx1 3]
      if newFs.any (fun s => s.enabled) then some { ctx1 with fs_ctx := newFs }
      else Option.none

/-- C3 (divergence witness): evaluating `ncaDecryptKeyArea` on a V0
archive whose stored key area hashes to the plaintext marker shows the
code KAEK-decrypting the slots instead of copying them verbatim, and on
a V0 archive whose stored key area does **not** hash to the marker the
code copies the (encrypted) bytes verbatim instead of KAEK-decrypting
them — the polarity of the claimed behaviour is inverted.  Hash oracle:
constantly `42`; stored slots `(1, 2, 3, 4)`; KAEK oracle `k ↦ k + 100`. -/
theorem ncaDecryptKeyArea_nca0_divergence :
    (ncaDecryptKeyArea (fun _ => (42 : Nat)) 42 (fun _ _ k => some (k + 100))
       NcaVersion.nca0 0 0 ⟨1, 2, 3, 4⟩ = some ⟨101, 102, 0, 0⟩ ∧
     ncaDecryptKeyArea (fun _ => (42 : Nat)) 42 (fun _ _ k => some (k + 100))
       NcaVersion.nca0 0 0 ⟨1, 2, 3, 4⟩ ≠ some ⟨1, 2, 3, 4⟩) ∧
    (ncaDecryptKeyArea (fun _ => (42 : Nat)) 99 (fun _ _ k => some (k + 100))
       NcaVersion.nca0 0 0 ⟨1, 2, 3, 4⟩ = some ⟨1, 2, 3, 4⟩ ∧
     ncaDecryptKeyArea (fun _ => (42 : Nat)) 99 (fun _ _ k => some (k + 100))
       NcaVersion.nca0 0 0 ⟨1, 2, 3, 4⟩ ≠ some ⟨101, 102, 0, 0⟩) := by
  decide

/-- Re-encrypting one section-header slot returned by the read loop is
the identity on the slot (the re-encryption reproduces the stored
ciphertext, which is the original on-disk ciphertext), provided XTS
encryption inverts XTS decryption under the same keys and sector. -/
theorem ncaReadFsSlot_roundtrip {H : Type} [DecidableEq H] (co : CryptoOracles H)
    (st : Storage H) (version : NcaVersion) (contentSize : Nat) (hk : Nat × Nat)
    (dka : KeyArea) (fi : NcaFsInfo) (i : Nat)
    (s : Option (NcaFsHeader H × NcaFsHeader H))
    (hinv : ∀ k1 k2 sec b, co.xtsFsEncrypt k1 k2 sec (co.xtsFsDecrypt k1 k2 sec b) = b)
    (hread : ncaReadFsSlot co st version contentSize hk dka fi i = some s) :
    ncaEncryptFsSlot co version hk dka fi i
        { header := s.map Prod.fst, encrypted_header := s.map Prod.snd } =
      some { header := s.map Prod.fst, encrypted_header := s.map Prod.snd } ∧
    (fi.valid = true →
      ∃ c, st.fsHeaderBytesAt (ncaFsHeaderOffset version i fi.start_sector) = some c ∧
        s.map Prod.snd = some c) := by
  unfold ncaReadFsSlot at hread
  by_cases hv : fi.valid
  · simp only [hv, not_true, if_neg, ite_false, Bool.not_eq_true] at hread
    rcases hb : (ncaFsHeaderOffset version i fi.start_sector + ncaFsHeaderSize >
        contentSize : Bool) with _ | _
    · have hb' : ¬ (ncaFsHeaderOffset version i fi.start_sector + ncaFsHeaderSize >
          contentSize) := by simpa using hb
      rw [if_neg hb'] at hread
      cases hc : st.fsHeaderBytesAt (ncaFsHeaderOffset version i fi.start_sector) with
      | none => rw [hc] at hread; exact absurd hread (by simp)
      | some c =>
        rw [hc] at hread
        have hs : s = some (co.xtsFsDecrypt
            (if version ≠ NcaVersion.nca0 then hk.1 else dka.aes_xts_1)
            (if version ≠ NcaVersion.nca0 then hk.2 else dka.aes_xts_2)
            (ncaFsHeaderXtsSector version i fi.start_sector) c, c) := by
          simpa using hread.symm
        subst hs
        constructor
        · unfold ncaEncryptFsSlot
          simp [hv, hinv]
        · intro _
          exact ⟨c, rfl, rfl⟩
    · have hb' : (ncaFsHeaderOffset version i fi.start_sector + ncaFsHeaderSize >
          contentSize) := by simpa using hb
      rw [if_pos hb'] at hread
      exact absurd hread (by simp)
  · simp only [hv] at hread
    have hs : s = Option.none := by simpa [hv] using hread.symm
    subst hs
    constructor
    · unfold ncaEncryptFsSlot
      simp [hv]
    · intro hvv
      exact absurd hvv (by simpa using hv)

/-- Unfolding equation for `ncaEncryptHeaderCompute` when the header key
resolves and all four slot encryptions succeed. -/
theorem ncaEncryptHeaderCompute_eq {H : Type} [DecidableEq H] (co : CryptoOracles H)
    (ctx : NcaContext H) (hk : Nat × Nat) (t0 t1 t2 t3 : NcaFsSectionContext H)
    (hhk : co.headerKey = some hk)
    (h0 : ncaEncryptFsSlot co ctx.format_version hk ctx.decrypted_key_area
      (ctx.header.fs_info.getD 0 ⟨0,0,0,0⟩) 0 (ctx.fs_ctx.getD 0 {}) = some t0)
    (h1 : ncaEncryptFsSlot co ctx.format_version hk ctx.decrypted_key_area
      (ctx.header.fs_info.getD 1 ⟨0,0,0,0⟩) 1 (ctx.fs_ctx.getD 1 {}) = some t1)
    (h2 : ncaEncryptFsSlot co ctx.format_version hk ctx.decrypted_key_area
      (ctx.header.fs_info.getD 2 ⟨0,0,0,0⟩) 2 (ctx.fs_ctx.getD 2 {}) = some t2)
    (h3 : ncaEncryptFsSlot co ctx.format_version hk ctx.decrypted_key_area
      (ctx.header.fs_info.getD 3 ⟨0,0,0,0⟩) 3 (ctx.fs_ctx.getD 3 {}) = some t3) :
    ncaEncryptHeaderCompute co ctx =
      some { ctx with encrypted_header := co.xtsHdrEncrypt hk.1 hk.2 0 ctx.header,
                      fs_ctx := [t0, t1, t2, t3] } := by
  unfold ncaEncryptHeaderCompute
  rw [hhk]
  simp only [Option.some_bind]
  rw [h0]
  simp only [Option.some_bind]
  rw [h1]
  simp only [Option.some_bind]
  rw [h2]
  simp only [Option.some_bind]
  rw [h3]
  simp only [Option.some_bind]

/-- C2: for every archive whose header decrypts successfully,
re-encrypting the decrypted archive header (header key, sector 0) and the
decrypted section headers (per-format sector numbering; for V0 the
key-area XTS pair) reproduces the original on-disk bytes: the re-encrypted
archive header equals the bytes read at offset 0, and every populated
section slot's re-encrypted header equals the bytes read at that slot's
on-disk offset — for all three format versions and all four slots. -/
theorem header_roundtrip {H : Type} [DecidableEq H] (co : CryptoOracles H)
    (st : Storage H) (cid cty cs : Nat) (ctx : NcaContext H)
    (hinvH : ∀ k1 k2 sec b, co.xtsHdrEncrypt k1 k2 sec (co.xtsHdrDecrypt k1 k2 sec b) = b)
    (hinvF : ∀ k1 k2 sec b, co.xtsFsEncrypt k1 k2 sec (co.xtsFsDecrypt k1 k2 sec b) = b)
    (hread : ncaReadDecryptedHeader co st cid cty cs = some ctx) :
    ∃ ctx2, ncaEncryptHeaderCompute co ctx = some ctx2 ∧
      st.headerBytes = some ctx2.encrypted_header ∧
      ∀ i, i < 4 → (ctx.header.fs_info.getD i ⟨0, 0, 0, 0⟩).valid = true →
        ∃ s c, ctx2.fs_ctx.get? i = some s ∧
          st.fsHeaderBytesAt (ncaFsHeaderOffset ctx.format_version i
            (ctx.header.fs_info.getD i ⟨0, 0, 0, 0⟩).start_sector) = some c ∧
          s.encrypted_header = some c := by
  unfold ncaReadDecryptedHeader at hread
  by_cases hsz : cs < ncaFullHeaderLength
  · rw [if_pos hsz] at hread; exact absurd hread (by simp)
  rw [if_neg hsz] at hread
  simp only [Option.bind_eq_some] at hread
  obtain ⟨hk, hhk, encHdr, hhb, hread⟩ := hread
  by_cases hmagic : ¬ (bswap32 (co.xtsHdrDecrypt hk.1 hk.2 0 encHdr).magic = ncaNca3Magic ∨
      bswap32 (co.xtsHdrDecrypt hk.1 hk.2 0 encHdr).magic = ncaNca2Magic ∨
      bswap32 (co.xtsHdrDecrypt hk.1 hk.2 0 encHdr).magic = ncaNca0Magic) ∨
      (co.xtsHdrDecrypt hk.1 hk.2 0 encHdr).content_size ≠ cs
  · rw [if_pos hmagic] at hread; exact absurd hread (by simp)
  rw [if_neg hmagic] at hread
  simp only [Option.bind_eq_some, Option.some.injEq] at hread
  obtain ⟨dka, hdka, s0, hs0, s1, hs1, s2, hs2, s3, hs3, hctx⟩ := hread
  subst hctx
  have hr0 := ncaReadFsSlot_roundtrip co st _ cs hk dka _ 0 s0 hinvF hs0
  have hr1 := ncaReadFsSlot_roundtrip co st _ cs hk dka _ 1 s1 hinvF hs1
  have hr2 := ncaReadFsSlot_roundtrip co st _ cs hk dka _ 2 s2 hinvF hs2
  have hr3 := ncaReadFsSlot_roundtrip co st _ cs hk dka _ 3 s3 hinvF hs3
  apply Exists.intro
  refine ⟨?henc, ?enc, ?slots⟩
  case henc =>
    unfold ncaEncryptHeaderCompute
    rw [hhk]
    simp only [Option.some_bind, List.getD_cons_zero, List.getD_cons_succ,
      List.map_cons, List.map_nil]
    rw [hr0.1]
    simp only [Option.some_bind]
    rw [hr1.1]
    simp only [Option.some_bind]
    rw [hr2.1]
    simp only [Option.some_bind]
    rw [hr3.1]
    simp only [Option.some_bind]
    rfl
  case enc =>
    rw [hhb]
    simp only [hinvH]
  case slots =>
    intro i hi hvalid
    interval_cases i
    · rcases hr0.2 hvalid with ⟨c, hc, hsc⟩
      exact ⟨_, c, rfl, hc, hsc⟩
    · rcases hr1.2 hvalid with ⟨c, hc, hsc⟩
      exact ⟨_, c, rfl, hc, hsc⟩
    · rcases hr2.2 hvalid with ⟨c, hc, hsc⟩
      exact ⟨_, c, rfl, hc, hsc⟩
    · rcases hr3.2 hvalid with ⟨c, hc, hsc⟩
      exact ⟨_, c, rfl, hc, hsc⟩

/-! ### Concrete instances used by the witnesses -/

/-- Concrete crypto oracles: identity XTS permutations, constant hashes,
identity KAEK; the XTS inverse laws hold by `rfl`. -/
def testCo : CryptoOracles Nat where
  sha256Header := fun _ => 0
  sha256FsHeader := fun _ => 0
  sha256KeyArea := fun _ => 0
  nca0KeyAreaHash := 0
  xtsHdrDecrypt := fun _ _ _ b => b
  xtsHdrEncrypt := fun _ _ _ b => b
  xtsFsDecrypt := fun _ _ _ b => b
  xtsFsEncrypt := fun _ _ _ b => b
  headerKey := some (1, 2)
  kaekDecrypt := fun _ _ k => some k
  kaekLookup := fun _ _ => some 7
  ecbEncrypt := fun _ k => k
  mainSignatureModulus := fun _ => some 3
  rsaVerify := fun _ _ _ _ => true

/-- A minimal valid NCA3 header: plaintext magic bytes `"NCA3"` read as a
little-endian `u32` (`bswap32 0x3341434E = 0x4E434133`), declared size
`0xC00`, no rights id, empty key area, no populated sections. -/
def testHdrNca3 : NcaHeader Nat where
  main_signature := 0
  magic := 0x3341434E
  distribution_type := 0
  key_generation_old := 0
  kaek_index := 0
  content_size := 0xC00
  rights_id := 0
  key_generation := 0
  main_signature_key_generation := 0
  encrypted_key_area := KeyArea.zero
  fs_info := [⟨0,0,0,0⟩, ⟨0,0,0,0⟩, ⟨0,0,0,0⟩, ⟨0,0,0,0⟩]
  fs_header_hash := [0, 0, 0, 0]

/-- Storage holding `testHdrNca3` (identity cipher: ciphertext equals
plaintext). -/
def testStorage : Storage Nat where
  headerBytes := some testHdrNca3
  fsHeaderBytesAt := fun _ => Option.none
  bytesAt := fun _ _ => Option.none

/-- The context `ncaReadDecryptedHeader testCo testStorage 0 0 0xC00`
produces. -/
def testCtxNca3 : NcaContext Nat where
  content_id := 0
  content_type := 0
  content_size := 0xC00
  format_version := NcaVersion.nca3
  key_generation := 0
  rights_id_available := false
  header := testHdrNca3
  encrypted_header := testHdrNca3
  header_hash := 0
  valid_main_signature := true
  decrypted_key_area := KeyArea.zero
  fs_ctx := [{}, {}, {}, {}]

/-- C2 witness: `header_roundtrip` applied to the concrete NCA3 archive,
with the XTS inverse laws and the successful header read discharged on
the identity-cipher instance. -/
theorem header_roundtrip_witness :
    ∃ ctx2, ncaEncryptHeaderCompute testCo testCtxNca3 = some ctx2 ∧
      testStorage.headerBytes = some ctx2.encrypted_header ∧
      ∀ i, i < 4 → (testCtxNca3.header.fs_info.getD i ⟨0, 0, 0, 0⟩).valid = true →
        ∃ s c, ctx2.fs_ctx.get? i = some s ∧
          testStorage.fsHeaderBytesAt (ncaFsHeaderOffset testCtxNca3.format_version i
            (testCtxNca3.header.fs_info.getD i ⟨0, 0, 0, 0⟩).start_sector) = some c ∧
          s.encrypted_header = some c :=
  header_roundtrip testCo testStorage 0 0 0xC00 testCtxNca3
    (fun _ _ _ _ => rfl) (fun _ _ _ _ => rfl) (by decide)

/-! ## Claim C7: the main-signature result is a recorded boolean -/

/-- The section-header read loop does not consult the signature oracles. -/
theorem ncaReadFsSlot_signature_irrel {H : Type} [DecidableEq H]
    (co : CryptoOracles H) (msm : Nat → Option Nat)
    (rv : NcaHeader H → Nat → Nat → Nat → Bool) (st : Storage H)
    (version : NcaVersion) (cs : Nat) (hk : Nat × Nat) (dka : KeyArea)
    (fi : NcaFsInfo) (i : Nat) :
    ncaReadFsSlot { co with mainSignatureModulus := msm, rsaVerify := rv }
        st version cs hk dka fi i = ncaReadFsSlot co st version cs hk dka fi i := rfl

/-- Swapping the signature-verification oracles (modulus provider and
RSA-PSS verifier) changes nothing about `ncaReadDecryptedHeader` except
the `valid_main_signature` boolean stored on the context. -/
theorem ncaReadDecryptedHeader_signature_oracle {H : Type} [DecidableEq H]
    (co : CryptoOracles H) (msm : Nat → Option Nat)
    (rv : NcaHeader H → Nat → Nat → Nat → Bool) (st : Storage H) (cid cty cs : Nat) :
    ncaReadDecryptedHeader { co with mainSignatureModulus := msm, rsaVerify := rv }
        st cid cty cs =
      (ncaReadDecryptedHeader co st cid cty cs).map (fun ctx =>
        { ctx with valid_main_signature :=
            ncaVerifyMainSignature ({ co with mainSignatureModulus := msm, rsaVerify := rv }) ctx.header }) := by
  unfold ncaReadDecryptedHeader
  simp only [ncaReadFsSlot_signature_irrel]
  by_cases hsz : cs < ncaFullHeaderLength
  · simp [hsz]
  simp only [if_neg hsz]
  cases co.headerKey with
  | none => rfl
  | some hk =>
  simp only [Option.some_bind]
  cases st.headerBytes with
  | none => rfl
  | some encHdr =>
  simp only [Option.some_bind]
  set hdr := co.xtsHdrDecrypt hk.1 hk.2 0 encHdr with hhdr
  by_cases hmagic : ¬ (bswap32 hdr.magic = ncaNca3Magic ∨ bswap32 hdr.magic = ncaNca2Magic ∨
      bswap32 hdr.magic = ncaNca0Magic) ∨ hdr.content_size ≠ cs
  · simp only [if_pos hmagic]; rfl
  simp only [if_neg hmagic]
  cases (if ¬ ncaCheckRightsIdAvailability hdr then
      ncaDecryptKeyArea co.sha256KeyArea co.nca0KeyAreaHash co.kaekDecrypt
        (if bswap32 hdr.magic = ncaNca3Magic then NcaVersion.nca3
         else if bswap32 hdr.magic = ncaNca2Magic then NcaVersion.nca2
         else NcaVersion.nca0)
        hdr.kaek_index (ncaGetKeyGenerationValue hdr) hdr.encrypted_key_area
    else some KeyArea.zero) with
  | none => rfl
  | some dka =>
  simp only [Option.some_bind]
  cases ncaReadFsSlot co st
      (if bswap32 hdr.magic = ncaNca3Magic then NcaVersion.nca3
       else if bswap32 hdr.magic = ncaNca2Magic then NcaVersion.nca2
       else NcaVersion.nca0) cs hk dka (hdr.fs_info.getD 0 ⟨0,0,0,0⟩) 0 with
  | none => rfl
  | some s0 =>
  simp only [Option.some_bind]
  cases ncaReadFsSlot co st
      (if bswap32 hdr.magic = ncaNca3Magic then NcaVersion.nca3
       else if bswap32 hdr.magic = ncaNca2Magic then NcaVersion.nca2
       else NcaVersion.nca0) cs hk dka (hdr.fs_info.getD 1 ⟨0,0,0,0⟩) 1 with
  | none => rfl
  | some s1 =>
  simp only [Option.some_bind]
  cases ncaReadFsSlot co st
      (if bswap32 hdr.magic = ncaNca3Magic then NcaVersion.nca3
       else if bswap32 hdr.magic = ncaNca2Magic then NcaVersion.nca2
       else NcaVersion.nca0) cs hk dka (hdr.fs_info.getD 2 ⟨0,0,0,0⟩) 2 with
  | none => rfl
  | some s2 =>
  simp only [Option.some_bind]
  cases ncaReadFsSlot co st
      (if bswap32 hdr.magic = ncaNca3Magic then NcaVersion.nca3
       else if bswap32 hdr.magic = ncaNca2Magic then NcaVersion.nca2
       else NcaVersion.nca0) cs hk dka (hdr.fs_info.getD 3 ⟨0,0,0,0⟩) 3 with
  | none => rfl
  | some s3 =>
  simp only [Option.some_bind]
  rfl

/-- `ncaApplyTicket` ignores `valid_main_signature`. -/
theorem ncaApplyTicket_signature_comm {H : Type} (ctx : NcaContext H)
    (ticket : Option Nat) (v : Bool) :
    ncaApplyTicket { ctx with valid_main_signature := v } ticket =
      { ncaApplyTicket ctx ticket with valid_main_signature := v } := by
  unfold ncaApplyTicket
  by_cases hr : ctx.rights_id_available
  · cases ticket <;> simp [hr]
  · simp [hr]

/-- `ncaApplyTicket` never touches the decrypted header. -/
theorem ncaApplyTicket_header {H : Type} (ctx : NcaContext H) (ticket : Option Nat) :
    (ncaApplyTicket ctx ticket).header = ctx.header := by
  unfold ncaApplyTicket
  by_cases hr : ctx.rights_id_available
  · cases ticket <;> simp [hr]
  · simp [hr]

/-- `ncaSectionInit` reads neither `valid_main_signature` nor the
signature oracles. -/
theorem ncaSectionInit_signature_irrel {H : Type} [DecidableEq H]
    (co : CryptoOracles H) (msm : Nat → Option Nat)
    (rv : NcaHeader H → Nat → Nat → Nat → Bool) (ctx : NcaContext H) (v : Bool) (i : Nat) :
    ncaSectionInit { co with mainSignatureModulus := msm, rsaVerify := rv }
        { ctx with valid_main_signature := v } i = ncaSectionInit co ctx i := rfl

/-- C7: for every archive whose header decrypts with a valid magic and
size, the main-signature verification result — RSA-2048-PSS-SHA-256 with
public exponent `0x010001` and the modulus selected by
`main_signature_key_generation`, as `ncaVerifyMainSignature` computes it
— is stored as the `valid_main_signature` boolean on the context, and
swapping the verification oracles (hence any verification failure) never
changes whether header reading or context initialization succeeds. -/
theorem main_signature_is_boolean {H : Type} [DecidableEq H] (co : CryptoOracles H)
    (msm : Nat → Option Nat) (rv : NcaHeader H → Nat → Nat → Nat → Bool)
    (st : Storage H) (cid cty cs : Nat) (ticket : Option Nat) :
    (∀ ctx, ncaReadDecryptedHeader co st cid cty cs = some ctx →
        ctx.valid_main_signature = ncaVerifyMainSignature co ctx.header) ∧
    ncaReadDecryptedHeader { co with mainSignatureModulus := msm, rsaVerify := rv }
        st cid cty cs =
      (ncaReadDecryptedHeader co st cid cty cs).map (fun ctx =>
        { ctx with valid_main_signature :=
            ncaVerifyMainSignature ({ co with mainSignatureModulus := msm, rsaVerify := rv }) ctx.header }) ∧
    ncaInitializeContext { co with mainSignatureModulus := msm, rsaVerify := rv }
        st cid cty cs ticket =
      (ncaInitializeContext co st cid cty cs ticket).map (fun ctx =>
        { ctx with valid_main_signature :=
            ncaVerifyMainSignature ({ co with mainSignatureModulus := msm, rsaVerify := rv }) ctx.header }) := by
  refine ⟨?stored, ncaReadDecryptedHeader_signature_oracle co msm rv st cid cty cs, ?init⟩
  case stored =>
    intro ctx hread
    unfold ncaReadDecryptedHeader at hread
    by_cases hsz : cs < ncaFullHeaderLength
    · rw [if_pos hsz] at hread; exact absurd hread (by simp)
    rw [if_neg hsz] at hread
    simp only [Option.bind_eq_some] at hread
    obtain ⟨hk, hhk, encHdr, hhb, hread⟩ := hread
    by_cases hmagic : ¬ (bswap32 (co.xtsHdrDecrypt hk.1 hk.2 0 encHdr).magic = ncaNca3Magic ∨
        bswap32 (co.xtsHdrDecrypt hk.1 hk.2 0 encHdr).magic = ncaNca2Magic ∨
        bswap32 (co.xtsHdrDecrypt hk.1 hk.2 0 encHdr).magic = ncaNca0Magic) ∨
        (co.xtsHdrDecrypt hk.1 hk.2 0 encHdr).content_size ≠ cs
    · rw [if_pos hmagic] at hread; exact absurd hread (by simp)
    rw [if_neg hmagic] at hread
    simp only [Option.bind_eq_some, Option.some.injEq] at hread
    obtain ⟨dka, hdka, s0, hs0, s1, hs1, s2, hs2, s3, hs3, hctx⟩ := hread
    subst hctx
    rfl
  case init =>
    unfold ncaInitializeContext
    by_cases hty : cty > ncmContentTypeDeltaFragment
    · simp [hty]
    simp only [if_neg hty]
    by_cases hsz : cs < ncaFullHeaderLength
    · simp [hsz]
    simp only [if_neg hsz]
    rw [ncaReadDecryptedHeader_signature_oracle]
    cases ncaReadDecryptedHeader co st cid cty cs with
    | none => rfl
    | some ctx0 =>
    simp only [Option.map_some']
    rw [ncaApplyTicket_signature_comm]
    simp only [ncaSectionInit_signature_irrel]
    by_cases hen : ([ncaSectionInit co (ncaApplyTicket ctx0 ticket) 0,
        ncaSectionInit co (ncaApplyTicket ctx0 ticket) 1,
        ncaSectionInit co (ncaApplyTicket ctx0 ticket) 2,
        ncaSectionInit co (ncaApplyTicket ctx0 ticket) 3].any (fun s => s.enabled)) = true
    · simp only [hen, if_pos, Option.map_some', ncaApplyTicket_header]
    · simp only [hen, Option.map_some', ncaApplyTicket_header]
      rfl

/-- C7 witness: `main_signature_is_boolean` applied to the concrete NCA3
archive with an always-failing verifier (no modulus, verifier constantly
`false`): reading still succeeds, with the boolean flipped. -/
theorem main_signature_is_boolean_witness :
    ncaReadDecryptedHeader
        ({ testCo with mainSignatureModulus := fun _ => Option.none,
                       rsaVerify := fun _ _ _ _ => false }) testStorage 0 0 0xC00 =
      (ncaReadDecryptedHeader testCo testStorage 0 0 0xC00).map (fun ctx =>
        { ctx with valid_main_signature :=
            ncaVerifyMainSignature ({ testCo with
              mainSignatureModulus := fun _ => Option.none,
              rsaVerify := fun _ _ _ _ => false }) ctx.header }) :=
  (main_signature_is_boolean testCo (fun _ => Option.none) (fun _ _ _ _ => false)
    testStorage 0 0 0xC00 Option.none).2.1

/-! ## Claim C6: working-key selection -/

set_option maxHeartbeats 2000000 in
/-- C6: for every enabled encrypted section: with a rights id (and a
retrieved titlekey), the AES context for CTR and CTR-Ex alike — indeed
for every encrypted section — is created with the title key; without a
rights id, CTR and CTR-Ex sections alike are keyed from decrypted
key-area slot 2 (the CTR key — CTR-Ex does not use slot 3), and XTS
sections use key-area slots 0 and 1. -/
theorem section_working_keys {H : Type} [DecidableEq H] (co : CryptoOracles H)
    (ctx : NcaContext H) (i : Nat) :
    ((ncaSectionInit co ctx i).enabled = true →
      ctx.rights_id_available = true → ctx.titlekey_retrieved = true →
      ((ncaSectionInit co ctx i).encryption_type = NcaEncryptionType.aesCtr ∨
       (ncaSectionInit co ctx i).encryption_type = NcaEncryptionType.aesCtrEx) →
      (ncaSectionInit co ctx i).ctr_key = some ctx.titlekey ∧
      (ncaSectionInit co ctx i).xts_keys = Option.none) ∧
    ((ncaSectionInit co ctx i).enabled = true →
      ctx.rights_id_available = false →
      ((ncaSectionInit co ctx i).encryption_type = NcaEncryptionType.aesCtr ∨
       (ncaSectionInit co ctx i).encryption_type = NcaEncryptionType.aesCtrEx) →
      (ncaSectionInit co ctx i).ctr_key = some (ctx.decrypted_key_area.get 2) ∧
      (ncaSectionInit co ctx i).xts_keys = Option.none) ∧
    ((ncaSectionInit co ctx i).enabled = true →
      ctx.rights_id_available = false →
      (ncaSectionInit co ctx i).encryption_type = NcaEncryptionType.aesXts →
      (ncaSectionInit co ctx i).xts_keys =
        some (ctx.decrypted_key_area.get 0, ctx.decrypted_key_area.get 1) ∧
      (ncaSectionInit co ctx i).ctr_key = Option.none) := by
  set s := ncaSectionInit co ctx i with hs
  clear_value s
  unfold ncaSectionInit at hs
  dsimp only at hs
  repeat' split at hs
  all_goals subst hs
  all_goals first
    | (simp
       done)
    | (refine ⟨?_, ?_, ?_⟩
       · intro he h1 h2 h3
         dsimp only at h3 ⊢
         rcases h3 with rfl | rfl <;>
           simp [ncaSectionCryptoKeys, NcaEncryptionType.val, KeyArea.get, h1, h2]
       · intro he h1 h2
         dsimp only at h2 ⊢
         rcases h2 with rfl | rfl <;>
           simp [ncaSectionCryptoKeys, NcaEncryptionType.val, KeyArea.get, h1]
       · intro he h1 h2
         dsimp only at h2 ⊢
         subst h2
         simp [ncaSectionCryptoKeys, NcaEncryptionType.val, KeyArea.get, h1])

/-- A minimal valid partition-FS section header: hierarchical-SHA256,
AES-CTR, no sparse layer. -/
def testFsHdrCtr : NcaFsHeader Nat where
  fs_type := ncaFsTypePartitionFs
  hash_type := ncaHashTypeHierarchicalSha256
  encryption_type := 3
  hash_data :=
    { hierarchical_sha256_data :=
        { master_hash := 0, hash_block_size := 0, hash_region_count := 0, hash_region := [] }
      integrity_meta_info :=
        { max_level_count := 0, level_information := [], master_hash := 0 } }
  aes_ctr_upper_iv := 0
  sparse_info :=
    { generation := 0, physical_offset := 0
      bucket := { magic := 0, version := 0, entry_count := 0, offset := 0, size := 0 } }

/-- A context whose section slot 0 is a valid AES-CTR section without a
rights id (key area `(11, 12, 13, 14)`). -/
def testCtxCtr : NcaContext Nat where
  content_id := 0
  content_type := 0
  content_size := 0xC00
  format_version := NcaVersion.nca3
  key_generation := 0
  rights_id_available := false
  header := { testHdrNca3 with fs_info := [⟨2, 4, 0, 0⟩, ⟨0,0,0,0⟩, ⟨0,0,0,0⟩, ⟨0,0,0,0⟩] }
  encrypted_header := testHdrNca3
  header_hash := 0
  valid_main_signature := true
  decrypted_key_area := ⟨11, 12, 13, 14⟩
  fs_ctx := [{ header := some testFsHdrCtr, encrypted_header := some testFsHdrCtr }, {}, {}, {}]

/-- C6 witness: `section_working_keys` applied to the concrete enabled
CTR section of `testCtxCtr` (no rights id): its working key is key-area
slot 2, value `13`. -/
theorem section_working_keys_witness :
    (ncaSectionInit testCo testCtxCtr 0).ctr_key =
      some (testCtxCtr.decrypted_key_area.get 2) ∧
    (ncaSectionInit testCo testCtxCtr 0).xts_keys = Option.none :=
  (section_working_keys testCo testCtxCtr 0).2.1 (by decide) (by decide)
    (Or.inl (by decide))

/-! ## Claim C8: error-propagation policy of `ncaInitializeContext` -/

/-- The spec's description of a structurally valid section, as one
conjunction: populated `fs_info`, section-header hash match, in-range
offset and non-empty size, resolvable encryption tag, valid section
type, and a valid sparse bucket (sparse) or in-bounds payload
(non-sparse). -/
def ncaSectionValidSpec {H : Type} [DecidableEq H] (co : CryptoOracles H)
    (ctx : NcaContext H) (i : Nat) : Bool :=
  let fi := ctx.header.fs_info.getD i ⟨0, 0, 0, 0⟩
  let slot := ctx.fs_ctx.getD i {}
  match slot.header with
  | Option.none => false
  | some ph =>
    let sectionOffset := ncaFsSectorOffset fi.start_sector
    let sectionSize := ncaFsSectorOffset fi.end_sector - sectionOffset
    let rawEnc := if ctx.format_version = NcaVersion.nca0 then 2 else ph.encryption_type
    let rawEnc :=
      if rawEnc = 0 then
        (if i = 0 then 3 else if i = 1 then 3 else if i = 2 then 1 else 0)
      else rawEnc
    fi.valid &&
    (co.sha256FsHeader ph == ctx.header.fs_header_hash.getD i (co.sha256FsHeader ph)) &&
    decide (ncaHeaderSize ≤ sectionOffset) && decide (sectionSize ≠ 0) &&
    (NcaEncryptionType.ofVal rawEnc).isSome &&
    (((ph.fs_type == ncaFsTypePartitionFs) && (ph.hash_type == ncaHashTypeHierarchicalSha256)) ||
     ((ph.fs_type == ncaFsTypeRomFs) && (ph.hash_type == ncaHashTypeHierarchicalIntegrity)) ||
     ((ph.fs_type == ncaFsTypeRomFs) && (ph.hash_type == ncaHashTypeHierarchicalSha256) &&
      decide (ctx.format_version = NcaVersion.nca0))) &&
    (if ph.sparse_info.generation ≠ 0 then
       (bswap32 ph.sparse_info.bucket.magic == ncaBktrMagic) &&
       (ph.sparse_info.bucket.version == ncaBktrVersion) &&
       decide (ncaHeaderSize ≤ ph.sparse_info.physical_offset) &&
       decide (ph.sparse_info.bucket.offset + ph.sparse_info.bucket.size ≠ 0) &&
       decide (ph.sparse_info.physical_offset +
         (ph.sparse_info.bucket.offset + ph.sparse_info.bucket.size) ≤ ctx.content_size) &&
       decide (ph.sparse_info.bucket.entry_count ≠ 0)
     else decide (sectionOffset + sectionSize ≤ ctx.content_size))

set_option maxHeartbeats 2000000 in
set_option maxRecDepth 4096 in
/-- An enabled slot of the FS-section loop is structurally valid in the
spec's sense: every listed structural problem (unpopulated entry, hash
mismatch, out-of-range offset or empty size, unresolvable encryption
tag, invalid section type, invalid sparse bucket, out-of-bounds payload)
leaves the slot disabled. -/
theorem ncaSectionInit_enabled_spec {H : Type} [DecidableEq H] (co : CryptoOracles H)
    (ctx : NcaContext H) (i : Nat) :
    (ncaSectionInit co ctx i).enabled = true → ncaSectionValidSpec co ctx i = true := by
  rw [ncaSectionValidSpec]
  set s := ncaSectionInit co ctx i with hs
  clear_value s
  unfold ncaSectionInit at hs
  dsimp only at hs
  repeat' split at hs
  all_goals subst_vars
  all_goals intro he
  all_goals try (exact Bool.noConfusion he)
  all_goals try dsimp only
  all_goals try simp only [Bool.and_eq_true, Bool.or_eq_true, beq_iff_eq, decide_eq_true_eq,
    Option.isSome_iff_exists]
  all_goals refine ⟨⟨⟨⟨⟨⟨?_, ?_⟩, ?_⟩, ?_⟩, ?_⟩, ?_⟩, ?_⟩
  all_goals try (exact ⟨_, by assumption⟩)
  all_goals try tauto
  all_goals try omega
  all_goals split
  all_goals try simp_all
  all_goals try omega

/-- C8: context initialization fails when the declared content size is
smaller than the full header length; given a successfully read header
(and a valid content type), initialization fails exactly when every
section slot is disabled, a successful initialization carries each slot
as the per-slot parse of that slot's own data (so one slot's structural
problems touch nothing else), and an enabled slot is structurally valid
— every listed per-section problem only disables that section. -/
theorem init_error_policy {H : Type} [DecidableEq H] (co : CryptoOracles H)
    (st : Storage H) (cid cty cs : Nat) (ticket : Option Nat) :
    (cs < ncaFullHeaderLength → ncaInitializeContext co st cid cty cs ticket = Option.none) ∧
    (∀ ctx0, ncaReadDecryptedHeader co st cid cty cs = some ctx0 →
      cty ≤ ncmContentTypeDeltaFragment →
      ((ncaInitializeContext co st cid cty cs ticket = Option.none ↔
          ∀ i, i < 4 → (ncaSectionInit co (ncaApplyTicket ctx0 ticket) i).enabled = false) ∧
        (∀ ctx', ncaInitializeContext co st cid cty cs ticket = some ctx' →
          ∀ i, i < 4 →
            ctx'.fs_ctx.get? i = some (ncaSectionInit co (ncaApplyTicket ctx0 ticket) i)))) ∧
    (∀ ctx1 i, (ncaSectionInit co ctx1 i).enabled = true →
      ncaSectionValidSpec co ctx1 i = true) := by
  refine ⟨?size, ?policy, fun ctx1 i => ncaSectionInit_enabled_spec co ctx1 i⟩
  case size =>
    intro h
    unfold ncaInitializeContext
    by_cases hty : cty > ncmContentTypeDeltaFragment
    · rw [if_pos hty]
    · rw [if_neg hty, if_pos h]
  case policy =>
    intro ctx0 hread hty
    have hsz : ¬ cs < ncaFullHeaderLength := by
      intro h
      unfold ncaReadDecryptedHeader at hread
      rw [if_pos h] at hread
      exact absurd hread (by simp)
    unfold ncaInitializeContext
    rw [if_neg (by omega), if_neg hsz, hread]
    simp only []
    by_cases hen : ([ncaSectionInit co (ncaApplyTicket ctx0 ticket) 0,
        ncaSectionInit co (ncaApplyTicket ctx0 ticket) 1,
        ncaSectionInit co (ncaApplyTicket ctx0 ticket) 2,
        ncaSectionInit co (ncaApplyTicket ctx0 ticket) 3].any (fun s => s.enabled)) = true
    · rw [if_pos hen]
      constructor
      · constructor
        · intro h; exact absurd h (by simp)
        · intro hall
          simp only [List.any_cons, List.any_nil, Bool.or_eq_true, Bool.or_false] at hen
          rcases hen with h | h | h | h
          · exact absurd h (by simp [hall 0 (by omega)])
          · exact absurd h (by simp [hall 1 (by omega)])
          · exact absurd h (by simp [hall 2 (by omega)])
          · exact absurd h (by simp [hall 3 (by omega)])
      · intro ctx' hctx i hi
        have hctx' : ctx' = { ncaApplyTicket ctx0 ticket with
            fs_ctx := [ncaSectionInit co (ncaApplyTicket ctx0 ticket) 0,
              ncaSectionInit co (ncaApplyTicket ctx0 ticket) 1,
              ncaSectionInit co (ncaApplyTicket ctx0 ticket) 2,
              ncaSectionInit co (ncaApplyTicket ctx0 ticket) 3] } := by
          simpa using hctx.symm
        subst hctx'
        interval_cases i <;> rfl
    · rw [if_neg hen]
      simp only [List.any_cons, List.any_nil, Bool.or_eq_true, Bool.or_false] at hen
      push_neg at hen
      constructor
      · constructor
        · intro _ i hi
          interval_cases i
          · simpa using hen.1
          · simpa using hen.2.1
          · simpa using hen.2.2.1
          · simpa using hen.2.2.2
        · intro _; rfl
      · intro ctx' hctx
        exact absurd hctx (by simp)

/-- C8 witness: `init_error_policy` applied to concrete archives — a
too-small declared size (5 bytes) fails initialization; the section-free
NCA3 archive read as `testCtxNca3` fails initialization exactly because
every slot is disabled; and `testCtxCtr`'s enabled slot 0 is
structurally valid. -/
theorem init_error_policy_witness :
    (ncaInitializeContext testCo testStorage 0 0 5 Option.none = Option.none) ∧
    ((ncaInitializeContext testCo testStorage 0 0 0xC00 Option.none = Option.none ↔
        ∀ i, i < 4 →
          (ncaSectionInit testCo (ncaApplyTicket testCtxNca3 Option.none) i).enabled = false) ∧
      (∀ ctx', ncaInitializeContext testCo testStorage 0 0 0xC00 Option.none = some ctx' →
        ∀ i, i < 4 →
          ctx'.fs_ctx.get? i =
            some (ncaSectionInit testCo (ncaApplyTicket testCtxNca3 Option.none) i))) ∧
    ncaSectionValidSpec testCo testCtxCtr 0 = true :=
  ⟨(init_error_policy testCo testStorage 0 0 5 Option.none).1 (by decide),
   (init_error_policy testCo testStorage 0 0 0xC00 Option.none).2.1 testCtxNca3
     (by decide) (by decide),
   (init_error_policy testCo testStorage 0 0 0xC00 Option.none).2.2 testCtxCtr 0 (by decide)⟩

/-! ## Claim C4: the patch-apply buffer merge

Byte buffers are modelled as total functions `Nat → Nat` (a raw pointer
plus the explicit sizes passed alongside, as in the source). -/

/-- `ncaWritePatchToMemoryBuffer` (nca.c:1226-1247).  Returns the
"fully applied" flag and the updated buffer.  The guard rejects an empty
or out-of-bounds patch and the two non-overlap cases; the `memcpy`
overlays `buf_block_size` bytes of patch data at `buf_block_offset`. -/
def ncaWritePatchToMemoryBuffer (contentSize : Nat) (patch : Nat → Nat)
    (patchSize patchOffset : Nat) (buf : Nat → Nat) (bufSize bufOffset : Nat) :
    Bool × (Nat → Nat) :=
  if patchSize = 0 ∨ patchOffset + patchSize > contentSize ∨
      bufOffset + bufSize ≤ patchOffset ∨ patchOffset + patchSize ≤ bufOffset then
    (false, buf)
  else
    let patchBlockOffset := if patchOffset < bufOffset then bufOffset - patchOffset else 0
    let patchRemainingSize := patchSize - patchBlockOffset
    let bufBlockOffset := if bufOffset < patchOffset then patchOffset - bufOffset else 0
    let bufRemainingSize := bufSize - bufBlockOffset
    let bufBlockSize :=
      if bufRemainingSize < patchRemainingSize then bufRemainingSize else patchRemainingSize
    (patchBlockOffset + bufBlockSize == patchSize,
     fun j => if bufBlockOffset ≤ j ∧ j < bufBlockOffset + bufBlockSize then
        patch (patchBlockOffset + (j - bufBlockOffset)) else buf j)

/-- C4: for every patch entry and caller buffer range: if the two ranges
do not overlap the merge returns not-fully-applied and leaves the buffer
unchanged; if they overlap it copies `min(remaining_patch, remaining_buf)`
bytes from `ciphertext[max(0, buf_offset − abs_offset)..]` onto
`buf[max(0, abs_offset − buf_offset)..]`; and it returns fully-applied
exactly when the copied range reaches the last byte of the patch. -/
theorem patch_merge_spec (contentSize : Nat) (patch : Nat → Nat)
    (patchSize patchOffset : Nat) (buf : Nat → Nat) (bufSize bufOffset : Nat)
    (hp : 0 < patchSize) (hbounds : patchOffset + patchSize ≤ contentSize) :
    (bufOffset + bufSize ≤ patchOffset ∨ patchOffset + patchSize ≤ bufOffset →
      ncaWritePatchToMemoryBuffer contentSize patch patchSize patchOffset buf bufSize bufOffset
        = (false, buf)) ∧
    (patchOffset < bufOffset + bufSize → bufOffset < patchOffset + patchSize →
      (∀ j, (ncaWritePatchToMemoryBuffer contentSize patch patchSize patchOffset
          buf bufSize bufOffset).2 j =
        if max 0 (patchOffset - bufOffset) ≤ j ∧
            j < max 0 (patchOffset - bufOffset) +
              min (patchSize - max 0 (bufOffset - patchOffset))
                  (bufSize - max 0 (patchOffset - bufOffset)) then
          patch (max 0 (bufOffset - patchOffset) + (j - max 0 (patchOffset - bufOffset)))
        else buf j) ∧
      ((ncaWritePatchToMemoryBuffer contentSize patch patchSize patchOffset
          buf bufSize bufOffset).1 = true ↔
        max 0 (bufOffset - patchOffset) +
          min (patchSize - max 0 (bufOffset - patchOffset))
              (bufSize - max 0 (patchOffset - bufOffset)) = patchSize)) := by
  constructor
  · intro hno
    unfold ncaWritePatchToMemoryBuffer
    rw [if_pos (by tauto)]
  · intro hov1 hov2
    unfold ncaWritePatchToMemoryBuffer
    rw [if_neg (by push_neg; omega)]
    dsimp only
    have e1 : (if patchOffset < bufOffset then bufOffset - patchOffset else 0) =
        max 0 (bufOffset - patchOffset) := by split_ifs <;> omega
    have e2 : (if bufOffset < patchOffset then patchOffset - bufOffset else 0) =
        max 0 (patchOffset - bufOffset) := by split_ifs <;> omega
    have e3 : (if bufSize - (if bufOffset < patchOffset then patchOffset - bufOffset else 0) <
          patchSize - (if patchOffset < bufOffset then bufOffset - patchOffset else 0) then
          bufSize - (if bufOffset < patchOffset then patchOffset - bufOffset else 0)
        else patchSize - (if patchOffset < bufOffset then bufOffset - patchOffset else 0)) =
        min (patchSize - max 0 (bufOffset - patchOffset))
            (bufSize - max 0 (patchOffset - bufOffset)) := by
      split_ifs <;> omega
    rw [e3, e1, e2]
    exact ⟨fun j => rfl, by simp⟩

/-- C4 witness: `patch_merge_spec` applied to a concrete overlapping
pair — patch `[3100, 3200)` against buffer `[3150, 3210)`: the copy
covers the patch's tail (`50 + min 50 60 = 100`), so the merge reports
fully-applied. -/
theorem patch_merge_spec_witness :
    (ncaWritePatchToMemoryBuffer 4000 (fun j => j + 1) 100 3100 (fun _ => 0) 60 3150).1 =
      true :=
  ((patch_merge_spec 4000 (fun j => j + 1) 100 3100 (fun _ => 0) 60 3150
      (by decide) (by decide)).2 (by decide) (by decide)).2.mpr (by decide)

/-! ## Claim C5: patch sets and the idempotence of patch application -/

/-- `NcaHashDataPatch`: one patch entry — ciphertext bytes, absolute
archive offset and size, and the per-entry "written" flag. -/
structure NcaHashDataPatch where
  written : Bool
  offset : Nat
  size : Nat
  data : Nat → Nat

/-- `NcaHierarchicalSha256Patch`. -/
structure NcaHierarchicalSha256Patch where
  content_id : Nat
  hash_region_count : Nat
  written : Bool
  hash_region_patch : List NcaHashDataPatch

/-- `NcaHierarchicalIntegrityPatch`. -/
structure NcaHierarchicalIntegrityPatch where
  content_id : Nat
  written : Bool
  hash_level_patch : List NcaHashDataPatch

/-- The entry loop shared by both patch-apply functions
(nca.c:374-381 and nca.c:398-405): entries already written are skipped;
the others are merged into the buffer, their flag records the
fully-applied result, and the set-level flag is the conjunction.
Returns `(updated entries, updated buffer, every entry fully applied)`. -/
def ncaWritePatchEntriesLoop (cs bufSize bufOffset : Nat) :
    List NcaHashDataPatch → (Nat → Nat) → List NcaHashDataPatch × (Nat → Nat) × Bool
  | [], buf => ([], buf, true)
  | e :: rest, buf =>
    if e.written then
      let r := ncaWritePatchEntriesLoop cs bufSize bufOffset rest buf
      (e :: r.1, r.2)
    else
      let w := ncaWritePatchToMemoryBuffer cs e.data e.size e.offset buf bufSize bufOffset
      let r := ncaWritePatchEntriesLoop cs bufSize bufOffset rest w.2
      ({ e with written := w.1 } :: r.1, r.2.1, r.2.2 && w.1)

/-- `ncaWriteHierarchicalSha256PatchToMemoryBuffer` (nca.c:367-382). -/
def ncaWriteHierarchicalSha256PatchToMemoryBuffer (contentId contentSize : Nat)
    (patch : NcaHierarchicalSha256Patch) (buf : Nat → Nat) (bufSize bufOffset : Nat) :
    NcaHierarchicalSha256Patch × (Nat → Nat) :=
  if contentSize < ncaFullHeaderLength ∨ patch.written = true ∨
      patch.content_id ≠ contentId ∨ patch.hash_region_count = 0 ∨
      patch.hash_region_count > ncaHierarchicalSha256MaxRegionCount ∨ bufSize = 0 ∨
      bufOffset + bufSize > contentSize then
    (patch, buf)
  else
    let r := ncaWritePatchEntriesLoop contentSize bufSize bufOffset
      (patch.hash_region_patch.take patch.hash_region_count) buf
    (NcaHierarchicalSha256Patch.mk patch.content_id patch.hash_region_count r.2.2
      (r.1 ++ patch.hash_region_patch.drop patch.hash_region_count), r.2.1)

/-- `ncaWriteHierarchicalIntegrityPatchToMemoryBuffer` (nca.c:391-406);
the loop runs over the fixed `NCA_IVFC_LEVEL_COUNT` entries. -/
def ncaWriteHierarchicalIntegrityPatchToMemoryBuffer (contentId contentSize : Nat)
    (patch : NcaHierarchicalIntegrityPatch) (buf : Nat → Nat) (bufSize bufOffset : Nat) :
    NcaHierarchicalIntegrityPatch × (Nat → Nat) :=
  if contentSize < ncaFullHeaderLength ∨ patch.written = true ∨
      patch.content_id ≠ contentId ∨ bufSize = 0 ∨ bufOffset + bufSize > contentSize then
    (patch, buf)
  else
    let r := ncaWritePatchEntriesLoop contentSize bufSize bufOffset
      (patch.hash_level_patch.take ncaIvfcLevelCount) buf
    (NcaHierarchicalIntegrityPatch.mk patch.content_id r.2.2
      (r.1 ++ patch.hash_level_patch.drop ncaIvfcLevelCount), r.2.1)

/-! ### Analysis of the entry merge -/

/-- Two entries cover disjoint archive ranges. -/
def EntryDisj (e f : NcaHashDataPatch) : Prop :=
  e.offset + e.size ≤ f.offset ∨ f.offset + f.size ≤ e.offset

/-- The merge guard that rejects entry `e` outright. -/
def entryGuardFails (cs bufSize bufOffset : Nat) (e : NcaHashDataPatch) : Prop :=
  e.size = 0 ∨ e.offset + e.size > cs ∨ bufOffset + bufSize ≤ e.offset ∨
    e.offset + e.size ≤ bufOffset

/-- Buffer index where entry `e`'s copy starts. -/
def entryDstOff (bufOffset : Nat) (e : NcaHashDataPatch) : Nat :=
  if bufOffset < e.offset then e.offset - bufOffset else 0

/-- Patch index where entry `e`'s copy starts. -/
def entrySrcOff (bufOffset : Nat) (e : NcaHashDataPatch) : Nat :=
  if e.offset < bufOffset then bufOffset - e.offset else 0

/-- Number of bytes entry `e` copies. -/
def entryCopyLen (bufSize bufOffset : Nat) (e : NcaHashDataPatch) : Nat :=
  if bufSize - entryDstOff bufOffset e < e.size - entrySrcOff bufOffset e then
    bufSize - entryDstOff bufOffset e
  else e.size - entrySrcOff bufOffset e

/-- Entry `e` writes buffer index `j`. -/
def entryCopies (cs bufSize bufOffset : Nat) (e : NcaHashDataPatch) (j : Nat) : Prop :=
  ¬ entryGuardFails cs bufSize bufOffset e ∧
  entryDstOff bufOffset e ≤ j ∧ j < entryDstOff bufOffset e + entryCopyLen bufSize bufOffset e

instance (cs bufSize bufOffset : Nat) (e : NcaHashDataPatch) (j : Nat) :
    Decidable (entryCopies cs bufSize bufOffset e j) := by
  unfold entryCopies entryGuardFails
  infer_instance

/-- The value entry `e` writes at buffer index `j`. -/
def entryVal (bufOffset : Nat) (e : NcaHashDataPatch) (j : Nat) : Nat :=
  e.data (entrySrcOff bufOffset e + (j - entryDstOff bufOffset e))

/-- Pointwise characterization of the entry merge's buffer output. -/
theorem writePatch_snd (cs bufSize bufOffset : Nat) (e : NcaHashDataPatch)
    (b : Nat → Nat) (j : Nat) :
    (ncaWritePatchToMemoryBuffer cs e.data e.size e.offset b bufSize bufOffset).2 j =
      if entryCopies cs bufSize bufOffset e j then entryVal bufOffset e j else b j := by
  by_cases hg : entryGuardFails cs bufSize bufOffset e
  · have h1 : (ncaWritePatchToMemoryBuffer cs e.data e.size e.offset b bufSize bufOffset).2 j
        = b j := by
      unfold ncaWritePatchToMemoryBuffer
      unfold entryGuardFails at hg
      rw [if_pos hg]
    rw [h1, if_neg]
    intro hc
    exact hc.1 hg
  · have hgu := hg
    unfold entryGuardFails at hgu
    by_cases hw : entryDstOff bufOffset e ≤ j ∧
        j < entryDstOff bufOffset e + entryCopyLen bufSize bufOffset e
    · rw [if_pos ⟨hg, hw.1, hw.2⟩]
      unfold ncaWritePatchToMemoryBuffer
      rw [if_neg hgu]
      dsimp only
      rw [if_pos]
      · unfold entryVal entrySrcOff entryDstOff
        rfl
      · simp only [entryCopyLen, entryDstOff, entrySrcOff] at hw
        exact hw
    · rw [if_neg (fun hc => hw ⟨hc.2.1, hc.2.2⟩)]
      unfold ncaWritePatchToMemoryBuffer
      rw [if_neg hgu]
      dsimp only
      rw [if_neg]
      simp only [entryCopyLen, entryDstOff, entrySrcOff] at hw
      exact hw

/-- A copying entry's target index corresponds to an archive position
inside the entry's range. -/
theorem entryCopies_range (cs bufSize bufOffset : Nat) (e : NcaHashDataPatch) (j : Nat)
    (h : entryCopies cs bufSize bufOffset e j) :
    e.offset ≤ bufOffset + j ∧ bufOffset + j < e.offset + e.size := by
  obtain ⟨hg, h1, h2⟩ := h
  unfold entryGuardFails at hg
  push_neg at hg
  unfold entryDstOff entryCopyLen entrySrcOff at *
  split_ifs at * <;> omega

/-- Entries with disjoint ranges never write the same buffer index. -/
theorem entryCopies_disjoint (cs bufSize bufOffset : Nat) (e f : NcaHashDataPatch) (j : Nat)
    (hd : EntryDisj e f) (he : entryCopies cs bufSize bufOffset e j)
    (hf : entryCopies cs bufSize bufOffset f j) : False := by
  have h1 := entryCopies_range cs bufSize bufOffset e j he
  have h2 := entryCopies_range cs bufSize bufOffset f j hf
  rcases hd with h | h <;> omega

/-- Unfolding the entry loop at an already-written head entry: it is
skipped with no copy. -/
theorem loop_cons_skip (cs bufSize bufOffset : Nat) (e : NcaHashDataPatch)
    (rest : List NcaHashDataPatch) (b : Nat → Nat) (h : e.written = true) :
    ncaWritePatchEntriesLoop cs bufSize bufOffset (e :: rest) b =
      (e :: (ncaWritePatchEntriesLoop cs bufSize bufOffset rest b).1,
       (ncaWritePatchEntriesLoop cs bufSize bufOffset rest b).2) := by
  simp only [ncaWritePatchEntriesLoop]
  rw [if_pos h]

/-- Unfolding the entry loop at an unwritten head entry. -/
theorem loop_cons_copy (cs bufSize bufOffset : Nat) (e : NcaHashDataPatch)
    (rest : List NcaHashDataPatch) (b : Nat → Nat) (h : e.written = false) :
    ncaWritePatchEntriesLoop cs bufSize bufOffset (e :: rest) b =
      (NcaHashDataPatch.mk
          (ncaWritePatchToMemoryBuffer cs e.data e.size e.offset b bufSize bufOffset).1
          e.offset e.size e.data ::
        (ncaWritePatchEntriesLoop cs bufSize bufOffset rest
          (ncaWritePatchToMemoryBuffer cs e.data e.size e.offset b bufSize bufOffset).2).1,
       (ncaWritePatchEntriesLoop cs bufSize bufOffset rest
          (ncaWritePatchToMemoryBuffer cs e.data e.size e.offset b bufSize bufOffset).2).2.1,
       (ncaWritePatchEntriesLoop cs bufSize bufOffset rest
          (ncaWritePatchToMemoryBuffer cs e.data e.size e.offset b bufSize bufOffset).2).2.2 &&
         (ncaWritePatchToMemoryBuffer cs e.data e.size e.offset b bufSize bufOffset).1) := by
  simp only [ncaWritePatchEntriesLoop]
  rw [if_neg (by simp [h])]

/-- The entry loop preserves the number of entries. -/
theorem loop_length (cs bufSize bufOffset : Nat) (l : List NcaHashDataPatch) :
    ∀ b : Nat → Nat,
      (ncaWritePatchEntriesLoop cs bufSize bufOffset l b).1.length = l.length := by
  induction l with
  | nil => intro b; rfl
  | cons e rest ih =>
    intro b
    cases hew : e.written with
    | true =>
      rw [loop_cons_skip cs bufSize bufOffset e rest b hew]
      simp [ih]
    | false =>
      rw [loop_cons_copy cs bufSize bufOffset e rest b hew]
      simp [ih]

/-- A buffer index written by no entry of the list is untouched by the loop. -/
theorem loop_untouched (cs bufSize bufOffset j : Nat) (l : List NcaHashDataPatch) :
    ∀ b : Nat → Nat, (∀ f ∈ l, ¬ entryCopies cs bufSize bufOffset f j) →
      (ncaWritePatchEntriesLoop cs bufSize bufOffset l b).2.1 j = b j := by
  induction l with
  | nil => intro b _; rfl
  | cons e rest ih =>
    intro b h
    have he : ¬ entryCopies cs bufSize bufOffset e j := h e (List.mem_cons_self e rest)
    have hrest : ∀ f ∈ rest, ¬ entryCopies cs bufSize bufOffset f j :=
      fun f hf => h f (List.mem_cons_of_mem e hf)
    cases hew : e.written with
    | true =>
      rw [loop_cons_skip cs bufSize bufOffset e rest b hew]
      exact ih b hrest
    | false =>
      rw [loop_cons_copy cs bufSize bufOffset e rest b hew]
      dsimp only
      rw [ih _ hrest, writePatch_snd, if_neg he]

/-- Running the entry loop a second time, on its own output entries and
output buffer, leaves the buffer unchanged — provided the entries cover
pairwise disjoint archive ranges. -/
theorem loop_twice (cs bufSize bufOffset : Nat) (l : List NcaHashDataPatch) :
    ∀ b : Nat → Nat, l.Pairwise EntryDisj →
      (ncaWritePatchEntriesLoop cs bufSize bufOffset
        (ncaWritePatchEntriesLoop cs bufSize bufOffset l b).1
        (ncaWritePatchEntriesLoop cs bufSize bufOffset l b).2.1).2.1 =
      (ncaWritePatchEntriesLoop cs bufSize bufOffset l b).2.1 := by
  induction l with
  | nil => intro b _; rfl
  | cons e rest ih =>
    intro b hp
    have hd_e : ∀ f ∈ rest, EntryDisj e f := (List.pairwise_cons.mp hp).1
    have hd_rest : rest.Pairwise EntryDisj := (List.pairwise_cons.mp hp).2
    cases hew : e.written with
    | true =>
      rw [loop_cons_skip cs bufSize bufOffset e rest b hew]
      dsimp only
      rw [loop_cons_skip cs bufSize bufOffset e _ _ hew]
      dsimp only
      exact ih b hd_rest
    | false =>
      rw [loop_cons_copy cs bufSize bufOffset e rest b hew]
      dsimp only
      cases hw1 : (ncaWritePatchToMemoryBuffer cs e.data e.size e.offset b bufSize bufOffset).1 with
      | true =>
        rw [loop_cons_skip cs bufSize bufOffset _ _ _ rfl]
        exact ih _ hd_rest
      | false =>
        rw [loop_cons_copy cs bufSize bufOffset _ _ _ rfl]
        dsimp only
        have hfix : (ncaWritePatchToMemoryBuffer cs e.data e.size e.offset
            (ncaWritePatchEntriesLoop cs bufSize bufOffset rest
              (ncaWritePatchToMemoryBuffer cs e.data e.size e.offset b bufSize bufOffset).2).2.1
            bufSize bufOffset).2 =
            (ncaWritePatchEntriesLoop cs bufSize bufOffset rest
              (ncaWritePatchToMemoryBuffer cs e.data e.size e.offset b bufSize bufOffset).2).2.1 := by
          funext j
          rw [writePatch_snd]
          by_cases hc : entryCopies cs bufSize bufOffset e j
          · rw [if_pos hc]
            rw [loop_untouched cs bufSize bufOffset j rest _
              (fun f hf hcf => entryCopies_disjoint cs bufSize bufOffset e f j
                (hd_e f hf) hc hcf)]
            rw [writePatch_snd, if_pos hc]
          · rw [if_neg hc]
        rw [hfix]
        exact ih _ hd_rest

/-- Taking the processed prefix back out of the stored entry list. -/
theorem loop_take_append (cs bufSize bufOffset n : Nat) (l : List NcaHashDataPatch)
    (b : Nat → Nat) :
    ((ncaWritePatchEntriesLoop cs bufSize bufOffset (l.take n) b).1 ++ l.drop n).take n =
      (ncaWritePatchEntriesLoop cs bufSize bufOffset (l.take n) b).1 := by
  have hlen := loop_length cs bufSize bufOffset (l.take n) b
  rw [List.length_take] at hlen
  by_cases hn : n ≤ l.length
  · have h1 : (ncaWritePatchEntriesLoop cs bufSize bufOffset (l.take n) b).1.length = n := by
      omega
    exact List.take_left' h1
  · have hdrop : l.drop n = [] := List.drop_eq_nil_of_le (by omega)
    rw [hdrop, List.append_nil]
    apply List.take_of_length_le
    omega

/-- Overlapping patch entries used to refute idempotence as literally claimed:
entry A covers archive range `[3072, 3172)` with constant byte 7. -/
def cexEntryA : NcaHashDataPatch := ⟨false, 3072, 100, fun _ => 7⟩

/-- Entry B covers archive range `[3122, 3152)`, inside A's range, with
constant byte 9. -/
def cexEntryB : NcaHashDataPatch := ⟨false, 3122, 30, fun _ => 9⟩

/-- A SHA-256 patch set whose two entries overlap. -/
def cexSha256Patch : NcaHierarchicalSha256Patch := ⟨0, 2, false, [cexEntryA, cexEntryB]⟩

/-- **C5 counterexample**: applying a patch set twice does NOT always yield
the same buffer bytes as applying it once. With overlapping entries A and B
and a buffer batch `[3100, 3160)` of a 5000-byte archive, the first apply
copies A (partially, so A's flag and the set flag stay false) and then B on
top of it, leaving B's byte 9 at buffer index 22; the second apply re-copies
the still-unwritten A, overwriting index 22 with A's byte 7. -/
theorem patch_apply_not_idempotent :
    (ncaWriteHierarchicalSha256PatchToMemoryBuffer 0 5000
        (ncaWriteHierarchicalSha256PatchToMemoryBuffer 0 5000 cexSha256Patch
          (fun _ => 0) 60 3100).1
        (ncaWriteHierarchicalSha256PatchToMemoryBuffer 0 5000 cexSha256Patch
          (fun _ => 0) 60 3100).2 60 3100).2 22 ≠
      (ncaWriteHierarchicalSha256PatchToMemoryBuffer 0 5000 cexSha256Patch
        (fun _ => 0) 60 3100).2 22 := by
  decide

/-- **C5** (amended): patch application is idempotent whenever the patch
entries cover pairwise disjoint archive ranges (as the hash-tree patches
produced by the patcher do): applying a SHA-256 or integrity patch set a
second time, to the set and buffer returned by the first apply, yields the
exact same buffer; a patch set whose written flag is set is returned
unchanged with no copy; and an entry whose written flag is set is skipped
by the entry loop with no copy. -/
theorem patch_apply_idempotent (contentId contentSize : Nat)
    (sp : NcaHierarchicalSha256Patch) (ip : NcaHierarchicalIntegrityPatch)
    (sbuf ibuf : Nat → Nat) (bufSize bufOffset : Nat)
    (hsd : (sp.hash_region_patch.take sp.hash_region_count).Pairwise EntryDisj)
    (hid : (ip.hash_level_patch.take ncaIvfcLevelCount).Pairwise EntryDisj) :
    (ncaWriteHierarchicalSha256PatchToMemoryBuffer contentId contentSize
        (ncaWriteHierarchicalSha256PatchToMemoryBuffer contentId contentSize sp sbuf
          bufSize bufOffset).1
        (ncaWriteHierarchicalSha256PatchToMemoryBuffer contentId contentSize sp sbuf
          bufSize bufOffset).2 bufSize bufOffset).2 =
      (ncaWriteHierarchicalSha256PatchToMemoryBuffer contentId contentSize sp sbuf
        bufSize bufOffset).2 ∧
    (ncaWriteHierarchicalIntegrityPatchToMemoryBuffer contentId contentSize
        (ncaWriteHierarchicalIntegrityPatchToMemoryBuffer contentId contentSize ip ibuf
          bufSize bufOffset).1
        (ncaWriteHierarchicalIntegrityPatchToMemoryBuffer contentId contentSize ip ibuf
          bufSize bufOffset).2 bufSize bufOffset).2 =
      (ncaWriteHierarchicalIntegrityPatchToMemoryBuffer contentId contentSize ip ibuf
        bufSize bufOffset).2 ∧
    (sp.written = true →
      ncaWriteHierarchicalSha256PatchToMemoryBuffer contentId contentSize sp sbuf
        bufSize bufOffset = (sp, sbuf)) ∧
    (ip.written = true →
      ncaWriteHierarchicalIntegrityPatchToMemoryBuffer contentId contentSize ip ibuf
        bufSize bufOffset = (ip, ibuf)) ∧
    (∀ (e : NcaHashDataPatch) (rest : List NcaHashDataPatch) (b : Nat → Nat),
      e.written = true →
      (ncaWritePatchEntriesLoop contentSize bufSize bufOffset (e :: rest) b).2.1 =
        (ncaWritePatchEntriesLoop contentSize bufSize bufOffset rest b).2.1) := by
  refine ⟨?_, ?_, ?_, ?_, ?_⟩
  · by_cases hg : contentSize < ncaFullHeaderLength ∨ sp.written = true ∨
        sp.content_id ≠ contentId ∨ sp.hash_region_count = 0 ∨
        sp.hash_region_count > ncaHierarchicalSha256MaxRegionCount ∨ bufSize = 0 ∨
        bufOffset + bufSize > contentSize
    · have h1 : ncaWriteHierarchicalSha256PatchToMemoryBuffer contentId contentSize sp sbuf
          bufSize bufOffset = (sp, sbuf) := by
        unfold ncaWriteHierarchicalSha256PatchToMemoryBuffer
        rw [if_pos hg]
      rw [h1]
      dsimp only
      rw [h1]
    · have h1 : ncaWriteHierarchicalSha256PatchToMemoryBuffer contentId contentSize sp sbuf
          bufSize bufOffset =
          (NcaHierarchicalSha256Patch.mk sp.content_id sp.hash_region_count
            (ncaWritePatchEntriesLoop contentSize bufSize bufOffset
              (sp.hash_region_patch.take sp.hash_region_count) sbuf).2.2
            ((ncaWritePatchEntriesLoop contentSize bufSize bufOffset
              (sp.hash_region_patch.take sp.hash_region_count) sbuf).1 ++
              sp.hash_region_patch.drop sp.hash_region_count),
           (ncaWritePatchEntriesLoop contentSize bufSize bufOffset
              (sp.hash_region_patch.take sp.hash_region_count) sbuf).2.1) := by
        unfold ncaWriteHierarchicalSha256PatchToMemoryBuffer
        rw [if_neg hg]
      push_neg at hg
      obtain ⟨hg1, hg2, hg3, hg4, hg5, hg6, hg7⟩ := hg
      rw [h1]
      dsimp only
      by_cases hok : (ncaWritePatchEntriesLoop contentSize bufSize bufOffset
          (sp.hash_region_patch.take sp.hash_region_count) sbuf).2.2 = true
      · unfold ncaWriteHierarchicalSha256PatchToMemoryBuffer
        rw [if_pos (Or.inr (Or.inl hok))]
      · unfold ncaWriteHierarchicalSha256PatchToMemoryBuffer
        rw [if_neg]
        · dsimp only
          rw [loop_take_append]
          exact loop_twice contentSize bufSize bufOffset _ sbuf hsd
        · intro hcon
          rcases hcon with h | h | h | h | h | h | h
          · omega
          · exact hok h
          · exact h hg3
          · exact hg4 h
          · exact absurd h (not_lt.mpr hg5)
          · exact hg6 h
          · omega
  · by_cases hg : contentSize < ncaFullHeaderLength ∨ ip.written = true ∨
        ip.content_id ≠ contentId ∨ bufSize = 0 ∨ bufOffset + bufSize > contentSize
    · have h1 : ncaWriteHierarchicalIntegrityPatchToMemoryBuffer contentId contentSize ip ibuf
          bufSize bufOffset = (ip, ibuf) := by
        unfold ncaWriteHierarchicalIntegrityPatchToMemoryBuffer
        rw [if_pos hg]
      rw [h1]
      dsimp only
      rw [h1]
    · have h1 : ncaWriteHierarchicalIntegrityPatchToMemoryBuffer contentId contentSize ip ibuf
          bufSize bufOffset =
          (NcaHierarchicalIntegrityPatch.mk ip.content_id
            (ncaWritePatchEntriesLoop contentSize bufSize bufOffset
              (ip.hash_level_patch.take ncaIvfcLevelCount) ibuf).2.2
            ((ncaWritePatchEntriesLoop contentSize bufSize bufOffset
              (ip.hash_level_patch.take ncaIvfcLevelCount) ibuf).1 ++
              ip.hash_level_patch.drop ncaIvfcLevelCount),
           (ncaWritePatchEntriesLoop contentSize bufSize bufOffset
              (ip.hash_level_patch.take ncaIvfcLevelCount) ibuf).2.1) := by
        unfold ncaWriteHierarchicalIntegrityPatchToMemoryBuffer
        rw [if_neg hg]
      push_neg at hg
      obtain ⟨hg1, hg2, hg3, hg4, hg5⟩ := hg
      rw [h1]
      dsimp only
      by_cases hok : (ncaWritePatchEntriesLoop contentSize bufSize bufOffset
          (ip.hash_level_patch.take ncaIvfcLevelCount) ibuf).2.2 = true
      · unfold ncaWriteHierarchicalIntegrityPatchToMemoryBuffer
        rw [if_pos (Or.inr (Or.inl hok))]
      · unfold ncaWriteHierarchicalIntegrityPatchToMemoryBuffer
        rw [if_neg]
        · dsimp only
          rw [loop_take_append]
          exact loop_twice contentSize bufSize bufOffset _ ibuf hid
        · intro hcon
          rcases hcon with h | h | h | h | h
          · omega
          · exact hok h
          · exact h hg3
          · exact hg4 h
          · omega
  · intro h
    unfold ncaWriteHierarchicalSha256PatchToMemoryBuffer
    rw [if_pos (Or.inr (Or.inl h))]
  · intro h
    unfold ncaWriteHierarchicalIntegrityPatchToMemoryBuffer
    rw [if_pos (Or.inr (Or.inl h))]
  · intro e rest b h
    rw [loop_cons_skip contentSize bufSize bufOffset e rest b h]

/-- A single-entry SHA-256 patch set (entries trivially disjoint). -/
def wSha256Patch : NcaHierarchicalSha256Patch := ⟨0, 1, false, [cexEntryA]⟩

/-- A single-entry integrity patch set (entries trivially disjoint). -/
def wIntegrityPatch : NcaHierarchicalIntegrityPatch := ⟨0, false, [cexEntryB]⟩

/-- C5 witness: the amended idempotence theorem instantiated at concrete
single-entry patch sets over a 5000-byte archive with buffer batch
`[3100, 3160)`. -/
theorem patch_apply_idempotent_witness :
    (ncaWriteHierarchicalSha256PatchToMemoryBuffer 0 5000
        (ncaWriteHierarchicalSha256PatchToMemoryBuffer 0 5000 wSha256Patch
          (fun _ => 0) 60 3100).1
        (ncaWriteHierarchicalSha256PatchToMemoryBuffer 0 5000 wSha256Patch
          (fun _ => 0) 60 3100).2 60 3100).2 =
      (ncaWriteHierarchicalSha256PatchToMemoryBuffer 0 5000 wSha256Patch
        (fun _ => 0) 60 3100).2 ∧
    (ncaWriteHierarchicalIntegrityPatchToMemoryBuffer 0 5000
        (ncaWriteHierarchicalIntegrityPatchToMemoryBuffer 0 5000 wIntegrityPatch
          (fun _ => 0) 60 3100).1
        (ncaWriteHierarchicalIntegrityPatchToMemoryBuffer 0 5000 wIntegrityPatch
          (fun _ => 0) 60 3100).2 60 3100).2 =
      (ncaWriteHierarchicalIntegrityPatchToMemoryBuffer 0 5000 wIntegrityPatch
        (fun _ => 0) 60 3100).2 ∧
    (wSha256Patch.written = true →
      ncaWriteHierarchicalSha256PatchToMemoryBuffer 0 5000 wSha256Patch
        (fun _ => 0) 60 3100 = (wSha256Patch, fun _ => 0)) ∧
    (wIntegrityPatch.written = true →
      ncaWriteHierarchicalIntegrityPatchToMemoryBuffer 0 5000 wIntegrityPatch
        (fun _ => 0) 60 3100 = (wIntegrityPatch, fun _ => 0)) ∧
    (∀ (e : NcaHashDataPatch) (rest : List NcaHashDataPatch) (b : Nat → Nat),
      e.written = true →
      (ncaWritePatchEntriesLoop 5000 60 3100 (e :: rest) b).2.1 =
        (ncaWritePatchEntriesLoop 5000 60 3100 rest b).2.1) :=
  patch_apply_idempotent 0 5000 wSha256Patch wIntegrityPatch (fun _ => 0) (fun _ => 0)
    60 3100 (by simp [wSha256Patch])
    (by rw [show wIntegrityPatch.hash_level_patch.take ncaIvfcLevelCount = [cexEntryB] from rfl]
        simp)

/-! ## Claim C9: header mutation helpers and the header-dirty state -/

/-- Modelled from the spec: `NcaDistributionType_Download` (declared in
nca.h, absent from src/) — the download distribution tag, value 0 versus
1 for gamecard. -/
def ncaDistributionTypeDownload : Nat := 0

/-- Modelled from the spec: `ncaIsHeaderDirty` (declared in nca.h, absent
from src/).  The spec describes header dirtiness as state that flips on
header mutation; src/ stores a SHA-256 snapshot of the plaintext header
at read time (`ctx->header_hash`, nca.c:638) and keeps no flag, so
dirtiness is "the current header no longer hashes to the snapshot". -/
def ncaIsHeaderDirty {H : Type} [DecidableEq H] (co : CryptoOracles H)
    (ctx : NcaContext H) : Bool :=
  co.sha256Header ctx.header ≠ ctx.header_hash

/-- `ncaSetDownloadDistributionType` (nca.c:408-414): no-op on an invalid
context or when the distribution type already is download; otherwise the
header's distribution type is set to download. -/
def ncaSetDownloadDistributionType {H : Type} (ctx : NcaContext H) : NcaContext H :=
  if ctx.content_size < ncaFullHeaderLength ∨ ctx.content_type > ncmContentTypeDeltaFragment ∨
      ctx.header.distribution_type = ncaDistributionTypeDownload then ctx
  else
    let hdr := { ctx.header with distribution_type := ncaDistributionTypeDownload }
    { ctx with header := hdr }

/-- `ncaRemoveTitleKeyCrypto` (nca.c:416-457): failure on an invalid
context; trivial success when there is no usable titlekey crypto;
otherwise the titlekey is copied into the CTR slot of the decrypted key
area, the key area is re-encrypted into the header, the header's rights
id is wiped and the rights-id flag is cleared. -/
def ncaRemoveTitleKeyCrypto {H : Type} [DecidableEq H] (co : CryptoOracles H)
    (ctx : NcaContext H) : Option (NcaContext H) :=
  if ctx.content_size < ncaFullHeaderLength ∨ ctx.content_type > ncmContentTypeDeltaFragment then
    Option.none
  else if ¬ (ctx.rights_id_available = true ∧ ctx.titlekey_retrieved = true) then some ctx
  else
    let dka := ctx.decrypted_key_area.set 2 ctx.titlekey
    match ncaEncryptKeyArea co.sha256KeyArea co.nca0KeyAreaHash co.kaekLookup co.ecbEncrypt
        ctx.format_version ctx.header.kaek_index ctx.key_generation
        ctx.header.encrypted_key_area dka with
    | Option.none => Option.none
    | some ea =>
      let hdr := { ctx.header with rights_id := 0, encrypted_key_area := ea }
      some { ctx with decrypted_key_area := dka, header := hdr, rights_id_available := false }

/-- `ncaUpdateContentIdAndHash` (nca.c:548-559): copies the new SHA-256
content hash into the context's content id (its first 16 bytes; the model
keeps the whole value) and content hash.  The header is never touched. -/
def ncaUpdateContentIdAndHash {H : Type} (ctx : NcaContext H) (hashVal : Nat) :
    NcaContext H :=
  { ctx with content_id := hashVal, hash := hashVal }

/-- `ncaEncryptHeader` (nca.c:459-518): failure on an invalid context; a
header that is not dirty is skipped as a no-op success (nca.c:468);
otherwise the archive header and every populated section header are
re-encrypted. -/
def ncaEncryptHeader {H : Type} [DecidableEq H] (co : CryptoOracles H)
    (ctx : NcaContext H) : Option (NcaContext H) :=
  if ctx.content_size < ncaFullHeaderLength then Option.none
  else if ¬ ncaIsHeaderDirty co ctx then some ctx
  else ncaEncryptHeaderCompute co ctx

/-! ## Claim C10: patch generation and CTR-Ex sections -/

/-- `ALIGN_DOWN(x, a)` for the power-of-two alignments used here. -/
def alignDown (x a : Nat) : Nat := (x / a) * a

/-- `ALIGN_UP(x, a)` for the power-of-two alignments used here. -/
def alignUp (x a : Nat) : Nat := ((x + a - 1) / a) * a

/-- The collaborators of the patch generator outside this translation
unit: decrypted section reads (`_ncaReadFsSection`, returning
`Option.none` on failure), the section's block ciphers
(`aes128XtsNintendoCrypt`, whose short-write failure is `Option.none`,
and `aes128CtrCrypt`), SHA-256 over a byte block, and the per-chunk
hash-recomputation loop (nca.c:1160-1165) that rewrites a parent layer
block from a patched child block. -/
structure SectionOracles (H : Type) where
  readFs : Nat → Nat → Option (Nat → Nat)
  xtsEncrypt : Nat → (Nat → Nat) → Nat → Option (Nat → Nat)
  ctrEncrypt : Nat → (Nat → Nat) → (Nat → Nat)
  shaBytes : (Nat → Nat) → Nat → H
  rehash : (Nat → Nat) → (Nat → Nat) → Nat → Nat → Bool → (Nat → Nat)

/-- `_ncaGenerateEncryptedFsSectionBlock` (nca.c:1249-1378): the returned
triple is `(ciphertext block, *out_block_size, *out_block_offset)` and
`Option.none` models the `NULL` failure return.  The guard requires an
enabled non-sparse section with a valid type, an encryption type that is
neither `Auto` nor `>= AesCtrEx`, and in-bounds data; the body re-encrypts
either the aligned block in place or an aligned superblock read back from
the section. -/
def ncaGenerateEncryptedFsSectionBlock {H : Type} [DecidableEq H] (io : SectionOracles H)
    (nca : NcaContext H) (s : NcaFsSectionContext H)
    (data : Nat → Nat) (dataSize dataOffset : Nat) :
    Option ((Nat → Nat) × Nat × Nat) :=
  if s.enabled = false ∨ s.has_sparse_layer = true ∨ s.section_num ≥ ncaFsHeaderCount ∨
      s.section_offset < ncaHeaderSize ∨ s.section_type = NcaFsSectionType.invalid ∨
      s.encryption_type = NcaEncryptionType.auto ∨
      s.encryption_type.val ≥ NcaEncryptionType.aesCtrEx.val ∨ dataSize = 0 ∨
      dataOffset + dataSize > s.section_size then
    Option.none
  else
    let contentOffset := s.section_offset + dataOffset
    if (nca.format_version ≠ NcaVersion.nca0 ∧ nca.format_version ≠ NcaVersion.nca2 ∧
        nca.format_version ≠ NcaVersion.nca3) ∨ contentOffset + dataSize > nca.content_size then
      Option.none
    else if s.encryption_type = NcaEncryptionType.none ∨
        (s.encryption_type = NcaEncryptionType.aesXts ∧
          contentOffset % ncaAesXtsSectorSize = 0 ∧ dataSize % ncaAesXtsSectorSize = 0) ∨
        (s.encryption_type = NcaEncryptionType.aesCtr ∧
          contentOffset % aesBlockSize = 0 ∧ dataSize % aesBlockSize = 0) then
      if s.encryption_type = NcaEncryptionType.aesXts then
        let sector := (if nca.format_version ≠ NcaVersion.nca0 then dataOffset
          else contentOffset - ncaHeaderSize) / ncaAesXtsSectorSize
        (io.xtsEncrypt sector data dataSize).map fun enc => (enc, dataSize, contentOffset)
      else if s.encryption_type = NcaEncryptionType.aesCtr then
        some (io.ctrEncrypt contentOffset data, dataSize, contentOffset)
      else some (data, dataSize, contentOffset)
    else
      let blockAlign := if s.encryption_type = NcaEncryptionType.aesXts then
        ncaAesXtsSectorSize else aesBlockSize
      let blockStart := alignDown dataOffset blockAlign
      let blockEnd := alignUp (dataOffset + dataSize) blockAlign
      let blockSize := blockEnd - blockStart
      let plainChunkOffset := dataOffset - blockStart
      let contentOffset2 := s.section_offset + blockStart
      match io.readFs blockSize blockStart with
      | Option.none => Option.none
      | some dec =>
        let patched := fun j =>
          if plainChunkOffset ≤ j ∧ j < plainChunkOffset + dataSize then
            data (j - plainChunkOffset) else dec j
        if s.encryption_type = NcaEncryptionType.aesXts then
          let sector := (if nca.format_version ≠ NcaVersion.nca0 then blockStart
            else contentOffset2 - ncaHeaderSize) / ncaAesXtsSectorSize
          (io.xtsEncrypt sector patched blockSize).map fun enc =>
            (enc, blockSize, contentOffset2)
        else if s.encryption_type = NcaEncryptionType.aesCtr then
          some (io.ctrEncrypt contentOffset2 patched, blockSize, contentOffset2)
        else some (patched, blockSize, contentOffset2)

/-- The section header with the recalculated master hash written back
into its `HashData` block (nca.c:1168-1172). -/
def NcaFsHeader.withMasterHash {H : Type} (ph : NcaFsHeader H) (integrity : Bool)
    (mh : H) : NcaFsHeader H :=
  if integrity then
    { ph with hash_data := { ph.hash_data with integrity_meta_info :=
        { ph.hash_data.integrity_meta_info with master_hash := mh } } }
  else
    { ph with hash_data := { ph.hash_data with hierarchical_sha256_data :=
        { ph.hash_data.hierarchical_sha256_data with master_hash := mh } } }

/-- What a successful `ncaGenerateHashDataPatch` hands back: one
ciphertext block per layer (index 0 = master layer), the recalculated
master hash, the section header it was written into, the recalculated
archive-header hash slot for this section header, and the patch set's
content id and region count. -/
structure GenPatchResult (H : Type) where
  patches : List NcaHashDataPatch
  master_hash : H
  new_fs_header : NcaFsHeader H
  fs_header_hash : H
  content_id : Nat
  region_count : Nat

/-- The per-layer loop of `ncaGenerateHashDataPatch` (nca.c:1050-1196),
walking layer indices `i = layer_count` down to `1`.  Carries the
`(cur_data, cur_data_offset, cur_data_size)` state; produces the layer
patches in processing order (deepest layer first) plus the recalculated
master hash.  Any layer-validation, read or encrypt-block failure aborts
the whole generation (`Option.none`). -/
def ncaGenerateHashDataPatchLoop {H : Type} [DecidableEq H] (io : SectionOracles H)
    (nca : NcaContext H) (s : NcaFsSectionContext H) (ph : NcaFsHeader H)
    (origData : Nat → Nat) (layerCount : Nat) (integrity : Bool) :
    Nat → (Nat → Nat) → Nat → Nat → Option (List NcaHashDataPatch × H)
  | 0, _, _, _ => Option.none
  | Nat.succ j, curData, curOffset, curSize =>
    let i := Nat.succ j
    let hbs := if ¬ integrity then ph.hash_data.hierarchical_sha256_data.hash_block_size
      else ncaIvfcBlockSize ((ph.hash_data.integrity_meta_info.level_information.getD
        (i - 1) ⟨0, 0, 0⟩).block_order)
    let curLayerOffset := if ¬ integrity then
        (ph.hash_data.hierarchical_sha256_data.hash_region.getD (i - 1) ⟨0, 0⟩).offset
      else (ph.hash_data.integrity_meta_info.level_information.getD (i - 1) ⟨0, 0, 0⟩).offset
    let curLayerSize := if ¬ integrity then
        (ph.hash_data.hierarchical_sha256_data.hash_region.getD (i - 1) ⟨0, 0⟩).size
      else (ph.hash_data.integrity_meta_info.level_information.getD (i - 1) ⟨0, 0, 0⟩).size
    let parentLayerOffset := if ¬ integrity then
        (ph.hash_data.hierarchical_sha256_data.hash_region.getD (i - 2) ⟨0, 0⟩).offset
      else (ph.hash_data.integrity_meta_info.level_information.getD (i - 2) ⟨0, 0, 0⟩).offset
    let parentLayerSize := if ¬ integrity then
        (ph.hash_data.hierarchical_sha256_data.hash_region.getD (i - 2) ⟨0, 0⟩).size
      else (ph.hash_data.integrity_meta_info.level_information.getD (i - 2) ⟨0, 0, 0⟩).size
    if hbs ≤ 1 ∨ curLayerSize = 0 ∨ curLayerOffset + curLayerSize > s.section_size ∨
        (i > 1 ∧ (parentLayerSize = 0 ∨
          parentLayerOffset + parentLayerSize > s.section_size)) then
      Option.none
    else
      let curReadStart := if i > 1 then curLayerOffset + alignDown curOffset hbs
        else curLayerOffset
      let curReadEndRaw := if i > 1 then curLayerOffset + alignUp (curOffset + curSize) hbs
        else curLayerOffset + curLayerSize
      let curReadSizeRaw := curReadEndRaw - curReadStart
      let parentReadStart := (curOffset / hbs) * sha256HashSize
      let parentReadSize := (curReadSizeRaw / hbs) * sha256HashSize
      let curReadSize := if curReadEndRaw > curLayerOffset + curLayerSize then
        curLayerOffset + curLayerSize - curReadStart else curReadSizeRaw
      let patchOffset := curOffset - alignDown curOffset hbs
      match io.readFs curReadSize curReadStart with
      | Option.none => Option.none
      | some block =>
        let src := if i = layerCount then origData else curData
        let patched := fun k =>
          if patchOffset ≤ k ∧ k < patchOffset + curSize then src (k - patchOffset)
          else block k
        if i > 1 then
          match io.readFs parentReadSize (parentLayerOffset + parentReadStart) with
          | Option.none => Option.none
          | some parentBlock =>
            let newParent := io.rehash parentBlock patched curReadSize hbs integrity
            match ncaGenerateEncryptedFsSectionBlock io nca s
                (fun k => patched (patchOffset + k)) curSize
                (curLayerOffset + curOffset) with
            | Option.none => Option.none
            | some enc =>
              match ncaGenerateHashDataPatchLoop io nca s ph origData layerCount
                  integrity j newParent parentReadStart parentReadSize with
              | Option.none => Option.none
              | some r =>
                some (NcaHashDataPatch.mk false enc.2.2 enc.2.1 enc.1 :: r.1, r.2)
        else
          let masterHash := io.shaBytes patched curReadSize
          match ncaGenerateEncryptedFsSectionBlock io nca s
              (fun k => patched (patchOffset + k)) curSize
              (curLayerOffset + curOffset) with
          | Option.none => Option.none
          | some enc =>
            some ([NcaHashDataPatch.mk false enc.2.2 enc.2.1 enc.1], masterHash)

/-- `ncaGenerateHashDataPatch` (nca.c:1012-1224): guard per
nca.c:1030-1035 (enabled non-sparse section; for the SHA-256 flavour a
`HierarchicalSha256` hash type with a non-zero block size, a region count
in `1..5` and a non-empty last region; for the integrity flavour a
`HierarchicalIntegrity` hash type with exactly `NCA_IVFC_LEVEL_COUNT`
levels below the master count and a non-empty last level; non-empty data
within the last layer).  On success the archive header's hash slot for
this section is recalculated over the updated section header
(nca.c:1198) and the patch set carries the content id and region count;
any failure leaves the output patch set empty (`Option.none` models the
`false` return after `ncaFreeHierarchical*Patch`). -/
def ncaGenerateHashDataPatch {H : Type} [DecidableEq H] (co : CryptoOracles H)
    (io : SectionOracles H) (nca : NcaContext H) (s : NcaFsSectionContext H)
    (data : Nat → Nat) (dataSize dataOffset : Nat) (integrity : Bool) :
    Option (GenPatchResult H) :=
  if s.enabled = false ∨ s.has_sparse_layer = true then Option.none
  else
    match s.header with
    | Option.none => Option.none
    | some ph =>
      let layerCount := if ¬ integrity then
          ph.hash_data.hierarchical_sha256_data.hash_region_count
        else ph.hash_data.integrity_meta_info.max_level_count - 1
      let lastLayerSize := if ¬ integrity then
          (ph.hash_data.hierarchical_sha256_data.hash_region.getD
            (layerCount - 1) ⟨0, 0⟩).size
        else (ph.hash_data.integrity_meta_info.level_information.getD
            (ncaIvfcLevelCount - 1) ⟨0, 0, 0⟩).size
      if (¬ integrity ∧ (ph.hash_type ≠ ncaHashTypeHierarchicalSha256 ∨
            ph.hash_data.hierarchical_sha256_data.hash_block_size = 0 ∨
            layerCount = 0 ∨ layerCount > ncaHierarchicalSha256MaxRegionCount ∨
            lastLayerSize = 0)) ∨
          (integrity ∧ (ph.hash_type ≠ ncaHashTypeHierarchicalIntegrity ∨
            layerCount = 0 ∨ layerCount ≠ ncaIvfcLevelCount ∨ lastLayerSize = 0)) ∨
          dataSize = 0 ∨ dataOffset + dataSize > lastLayerSize then
        Option.none
      else
        (ncaGenerateHashDataPatchLoop io nca s ph data layerCount integrity
          layerCount data dataOffset dataSize).map fun r =>
          let newHdr := ph.withMasterHash integrity r.2
          { patches := r.1.reverse, master_hash := r.2, new_fs_header := newHdr,
            fs_header_hash := co.sha256FsHeader newHdr,
            content_id := nca.content_id, region_count := layerCount }

/-- The encrypt-block guard rejects a CTR-Ex section outright
(`ctx->encryption_type >= NcaEncryptionType_AesCtrEx`, nca.c:1256). -/
theorem encBlock_ctr_ex_none {H : Type} [DecidableEq H] (io : SectionOracles H)
    (nca : NcaContext H) (s : NcaFsSectionContext H)
    (h : s.encryption_type = NcaEncryptionType.aesCtrEx) :
    ∀ (d : Nat → Nat) (ds doff : Nat),
      ncaGenerateEncryptedFsSectionBlock io nca s d ds doff = Option.none := by
  intro d ds doff
  unfold ncaGenerateEncryptedFsSectionBlock
  rw [if_pos]
  exact Or.inr (Or.inr (Or.inr (Or.inr (Or.inr (Or.inr (Or.inl (by rw [h])))))))

/-- Every success path of the layer loop runs through the encrypt block,
so a CTR-Ex section aborts the loop no matter the layer state. -/
theorem genLoop_ctr_ex_none {H : Type} [DecidableEq H] (io : SectionOracles H)
    (nca : NcaContext H) (s : NcaFsSectionContext H) (ph : NcaFsHeader H)
    (origData : Nat → Nat) (lc : Nat) (integrity : Bool)
    (h : s.encryption_type = NcaEncryptionType.aesCtrEx) :
    ∀ (k : Nat) (cd : Nat → Nat) (o sz : Nat),
      ncaGenerateHashDataPatchLoop io nca s ph origData lc integrity k cd o sz =
        Option.none := by
  intro k cd o sz
  have hE := encBlock_ctr_ex_none io nca s h
  cases k with
  | zero => rfl
  | succ j =>
    simp only [ncaGenerateHashDataPatchLoop, hE]
    repeat' first | split | dsimp only

/-- **C10**: a section whose encryption kind is CTR-Ex (the kind every
Patch-RomFS section is given) makes the encrypt-block primitive fail with
no ciphertext block — and therefore makes hash-tree patch generation,
which re-encrypts every layer through it, fail with an empty output patch
set; conversely a ciphertext block is only ever produced for an enabled,
non-sparse section whose encryption kind is None, XTS or CTR. -/
theorem patch_generation_rejects_ctr_ex {H : Type} [DecidableEq H]
    (co : CryptoOracles H) (io : SectionOracles H) (nca : NcaContext H)
    (s : NcaFsSectionContext H) (data : Nat → Nat) (dataSize dataOffset : Nat)
    (integrity : Bool) :
    (s.encryption_type = NcaEncryptionType.aesCtrEx →
      ncaGenerateEncryptedFsSectionBlock io nca s data dataSize dataOffset =
        Option.none ∧
      ncaGenerateHashDataPatch co io nca s data dataSize dataOffset integrity =
        Option.none) ∧
    (∀ r, ncaGenerateEncryptedFsSectionBlock io nca s data dataSize dataOffset = some r →
      s.enabled = true ∧ s.has_sparse_layer = false ∧
      (s.encryption_type = NcaEncryptionType.none ∨
        s.encryption_type = NcaEncryptionType.aesXts ∨
        s.encryption_type = NcaEncryptionType.aesCtr)) := by
  constructor
  · intro h
    refine ⟨encBlock_ctr_ex_none io nca s h data dataSize dataOffset, ?_⟩
    unfold ncaGenerateHashDataPatch
    split
    · rfl
    · split
      · rfl
      · rename_i hdr hhdr
        repeat' first | split | dsimp only
        all_goals first
          | rfl
          | (rw [genLoop_ctr_ex_none io nca s hdr data _ integrity h]; rfl)
  · intro r heq
    by_cases hg : s.enabled = false ∨ s.has_sparse_layer = true ∨
        s.section_num ≥ ncaFsHeaderCount ∨ s.section_offset < ncaHeaderSize ∨
        s.section_type = NcaFsSectionType.invalid ∨
        s.encryption_type = NcaEncryptionType.auto ∨
        s.encryption_type.val ≥ NcaEncryptionType.aesCtrEx.val ∨ dataSize = 0 ∨
        dataOffset + dataSize > s.section_size
    · rw [show ncaGenerateEncryptedFsSectionBlock io nca s data dataSize dataOffset =
          Option.none by unfold ncaGenerateEncryptedFsSectionBlock; rw [if_pos hg]] at heq
      exact Option.noConfusion heq
    · push_neg at hg
      obtain ⟨hg1, hg2, hg3, hg4, hg5, hg6, hg7, hg8, hg9⟩ := hg
      refine ⟨?_, ?_, ?_⟩
      · cases he : s.enabled with
        | true => rfl
        | false => exact absurd he hg1
      · cases hsp : s.has_sparse_layer with
        | false => rfl
        | true => exact absurd hsp hg2
      · cases het : s.encryption_type with
        | auto => exact absurd het hg6
        | none => exact Or.inl rfl
        | aesXts => exact Or.inr (Or.inl rfl)
        | aesCtr => exact Or.inr (Or.inr rfl)
        | aesCtrEx =>
          exfalso
          rw [het] at hg7
          exact absurd hg7 (by decide)

/-- A concrete instantiation of the generator's collaborators. -/
def c10io : SectionOracles Nat where
  readFs := fun _ _ => some (fun _ => 0)
  xtsEncrypt := fun _ d _ => some d
  ctrEncrypt := fun _ d => d
  shaBytes := fun _ _ => 0
  rehash := fun p _ _ _ _ => p

/-- A concrete enabled CTR-Ex (Patch-RomFS) section. -/
def c10sCtrEx : NcaFsSectionContext Nat :=
  { header := Option.none, section_num := 1, section_offset := 0x400,
    section_size := 0x1000, section_type := NcaFsSectionType.patchRomFs,
    encryption_type := NcaEncryptionType.aesCtrEx, enabled := true }

/-- A concrete enabled plaintext section the encrypt block accepts. -/
def c10sPlain : NcaFsSectionContext Nat :=
  { header := Option.none, section_num := 0, section_offset := 0x400,
    section_size := 0x1000, section_type := NcaFsSectionType.romFs,
    encryption_type := NcaEncryptionType.none, enabled := true }

/-- C10 witness: the theorem applied to the concrete CTR-Ex section (both
failure conclusions) and to the concrete plaintext section, for which the
encrypt block does produce a ciphertext block. -/
theorem patch_generation_rejects_ctr_ex_witness :
    (ncaGenerateEncryptedFsSectionBlock c10io testCtxNca3 c10sCtrEx (fun _ => 1) 16 0 =
        Option.none ∧
      ncaGenerateHashDataPatch testCo c10io testCtxNca3 c10sCtrEx (fun _ => 1) 16 0
        false = Option.none) ∧
    (c10sPlain.enabled = true ∧ c10sPlain.has_sparse_layer = false ∧
      (c10sPlain.encryption_type = NcaEncryptionType.none ∨
        c10sPlain.encryption_type = NcaEncryptionType.aesXts ∨
        c10sPlain.encryption_type = NcaEncryptionType.aesCtr)) :=
  ⟨(patch_generation_rejects_ctr_ex testCo c10io testCtxNca3 c10sCtrEx
      (fun _ => 1) 16 0 false).1 rfl,
   (patch_generation_rejects_ctr_ex testCo c10io testCtxNca3 c10sPlain
      (fun _ => 1) 16 0 false).2 ((fun _ => 1), 16, 0x400) rfl⟩

/-! ## Claim C9: header mutation helpers and the header-dirty state
(theorems; the helper definitions are above, the patch generator's
header write modelled here is nca.c:1198) -/

/-- The archive-header update a successful patch generation performs
(nca.c:1198): the header's fs-header-hash slot for this section is
replaced by the recalculated hash of the updated section header. -/
def ncaStoreFsHeaderHash {H : Type} (ctx : NcaContext H) (sectionNum : Nat)
    (h : H) : NcaContext H :=
  let hdr := { ctx.header with fs_header_hash := ctx.header.fs_header_hash.set sectionNum h }
  { ctx with header := hdr }

/-- An oracle instance whose header hash separates the header fields the
mutation helpers write (distribution type, rights id, fs-header-hash
slots), so dirtiness is observable. -/
def co9 : CryptoOracles Nat where
  sha256Header := fun h => h.distribution_type + 2 * h.rights_id + 3 * h.fs_header_hash.sum
  sha256FsHeader := fun _ => 1
  sha256KeyArea := fun _ => 0
  nca0KeyAreaHash := 0
  xtsHdrDecrypt := fun _ _ _ b => b
  xtsHdrEncrypt := fun _ _ _ b => b
  xtsFsDecrypt := fun _ _ _ b => b
  xtsFsEncrypt := fun _ _ _ b => b
  headerKey := some (1, 2)
  kaekDecrypt := fun _ _ k => some k
  kaekLookup := fun _ _ => some 7
  ecbEncrypt := fun _ k => k
  mainSignatureModulus := fun _ => some 3
  rsaVerify := fun _ _ _ _ => true

/-- A gamecard-distributed NCA3 header with a populated rights id. -/
def hdr9 : NcaHeader Nat where
  main_signature := 0
  magic := 0x3341434E
  distribution_type := 1
  key_generation_old := 0
  kaek_index := 0
  content_size := 0xC00
  rights_id := 5
  key_generation := 0
  main_signature_key_generation := 0
  encrypted_key_area := KeyArea.zero
  fs_info := [⟨0,0,0,0⟩, ⟨0,0,0,0⟩, ⟨0,0,0,0⟩, ⟨0,0,0,0⟩]
  fs_header_hash := [0, 0, 0, 0]

/-- A clean context over `hdr9` (`header_hash = co9.sha256Header hdr9`)
with a retrieved titlekey, so every mutation helper actually mutates. -/
def ctx9 : NcaContext Nat where
  content_id := 3
  content_type := 0
  content_size := 0xC00
  format_version := NcaVersion.nca3
  key_generation := 0
  rights_id_available := true
  titlekey_retrieved := true
  titlekey := 9
  header := hdr9
  encrypted_header := hdr9
  header_hash := 11
  valid_main_signature := true
  decrypted_key_area := KeyArea.zero
  fs_ctx := [{}, {}, {}, {}]

/-- What `ncaRemoveTitleKeyCrypto co9 ctx9` returns: titlekey copied into
the CTR slot, key area re-encrypted into the header, rights id wiped. -/
def ctx9r : NcaContext Nat :=
  { ctx9 with
    decrypted_key_area := ⟨0, 0, 9, 0⟩,
    header := { hdr9 with rights_id := 0, encrypted_key_area := ⟨0, 0, 9, 0⟩ },
    rights_id_available := false }

/-- A minimal hierarchical-SHA256 section header with one 16-byte hash
region, for a concrete successful patch generation. -/
def ph9 : NcaFsHeader Nat where
  fs_type := 1
  hash_type := ncaHashTypeHierarchicalSha256
  encryption_type := 1
  hash_data :=
    { hierarchical_sha256_data :=
        { master_hash := 0, hash_block_size := 16, hash_region_count := 1,
          hash_region := [⟨0, 16⟩] },
      integrity_meta_info :=
        { max_level_count := 0, level_information := [], master_hash := 0 } }
  aes_ctr_upper_iv := 0
  sparse_info := ⟨0, 0, ⟨0, 0, 0, 0, 0⟩⟩

/-- An enabled plaintext section over `ph9` the patch generator accepts. -/
def s9 : NcaFsSectionContext Nat :=
  { header := some ph9, section_num := 0, section_offset := 0x400,
    section_size := 0x1000, section_type := NcaFsSectionType.partitionFs,
    encryption_type := NcaEncryptionType.none, enabled := true }

/-- **C9 counterexample**: the claim that every successful mutation-helper
call leaves the header-dirty state true is false.  `ncaUpdateContentIdAndHash`
touches only the context's content id and hash — never the header — so on
a clean context the dirty state stays false and the subsequent
`ncaEncryptHeader` is skipped as a no-op; likewise the no-op branches of
the other helpers (distribution type already download, nca.c:411; no
titlekey crypto to remove, nca.c:425) return success without dirtying a
clean header. -/
theorem header_mutation_not_always_dirtying :
    ncaIsHeaderDirty co9 ctx9 = false ∧
    ncaIsHeaderDirty co9 (ncaUpdateContentIdAndHash ctx9 77) = false ∧
    ncaEncryptHeader co9 (ncaUpdateContentIdAndHash ctx9 77) =
      some (ncaUpdateContentIdAndHash ctx9 77) ∧
    ncaSetDownloadDistributionType testCtxNca3 = testCtxNca3 ∧
    ncaRemoveTitleKeyCrypto co9 testCtxNca3 = some testCtxNca3 ∧
    ncaIsHeaderDirty co9 testCtxNca3 = false := by
  decide

/-- **C9** (amended): on a context whose header-hash snapshot matches its
header, each helper leaves the header-dirty state true exactly when it
changed the header (SHA-256 collisions aside): `ncaSetDownloadDistributionType`
whenever the type was not already download, `ncaRemoveTitleKeyCrypto`
whenever it wipes a populated rights-id field, and a successful
`ncaGenerateHashDataPatch` whenever the recalculated fs-header-hash slot
it stores (nca.c:1198) differs from the stored one; `ncaUpdateContentIdAndHash`
never touches the header, leaves the dirty state false, and the
subsequent header encrypt is skipped, while a dirty header makes
`ncaEncryptHeader` perform the actual re-encryption. -/
theorem header_dirty_mutations {H : Type} [DecidableEq H] (co : CryptoOracles H)
    (ctx : NcaContext H) (v : Nat)
    (hclean : ctx.header_hash = co.sha256Header ctx.header) :
    ((ncaUpdateContentIdAndHash ctx v).header = ctx.header ∧
      ncaIsHeaderDirty co (ncaUpdateContentIdAndHash ctx v) = false ∧
      (¬ ctx.content_size < ncaFullHeaderLength →
        ncaEncryptHeader co (ncaUpdateContentIdAndHash ctx v) =
          some (ncaUpdateContentIdAndHash ctx v))) ∧
    (¬ ctx.content_size < ncaFullHeaderLength →
      ctx.content_type ≤ ncmContentTypeDeltaFragment →
      ctx.header.distribution_type ≠ ncaDistributionTypeDownload →
      (ncaSetDownloadDistributionType ctx).header ≠ ctx.header ∧
      (co.sha256Header (ncaSetDownloadDistributionType ctx).header ≠
          co.sha256Header ctx.header →
        ncaIsHeaderDirty co (ncaSetDownloadDistributionType ctx) = true)) ∧
    (∀ ctx' : NcaContext H,
      ncaRemoveTitleKeyCrypto co ctx = some ctx' →
      ctx.rights_id_available = true → ctx.titlekey_retrieved = true →
      ctx.header.rights_id ≠ 0 →
      ctx'.header ≠ ctx.header ∧ ctx'.header_hash = ctx.header_hash ∧
      (co.sha256Header ctx'.header ≠ co.sha256Header ctx.header →
        ncaIsHeaderDirty co ctx' = true)) ∧
    (∀ (io : SectionOracles H) (s : NcaFsSectionContext H) (d : Nat → Nat)
        (ds doff : Nat) (integrity : Bool) (r : GenPatchResult H),
      ncaGenerateHashDataPatch co io ctx s d ds doff integrity = some r →
      (ctx.header.fs_header_hash.set s.section_num r.fs_header_hash ≠
          ctx.header.fs_header_hash →
        (ncaStoreFsHeaderHash ctx s.section_num r.fs_header_hash).header ≠
          ctx.header) ∧
      (co.sha256Header
          (ncaStoreFsHeaderHash ctx s.section_num r.fs_header_hash).header ≠
          co.sha256Header ctx.header →
        ncaIsHeaderDirty co
          (ncaStoreFsHeaderHash ctx s.section_num r.fs_header_hash) = true)) ∧
    (∀ ctx2 : NcaContext H, ¬ ctx2.content_size < ncaFullHeaderLength →
      ncaIsHeaderDirty co ctx2 = true →
      ncaEncryptHeader co ctx2 = ncaEncryptHeaderCompute co ctx2) := by
  refine ⟨⟨rfl, ?_, ?_⟩, ?_, ?_, ?_, ?_⟩
  · simp only [ncaIsHeaderDirty, ncaUpdateContentIdAndHash, hclean]
    simp
  · intro hsz
    unfold ncaEncryptHeader
    rw [if_neg (by exact hsz)]
    rw [if_pos]
    simp only [ncaIsHeaderDirty, ncaUpdateContentIdAndHash, hclean]
    simp
  · intro hsz hty hdist
    have hstep : ncaSetDownloadDistributionType ctx =
        { ctx with header := { ctx.header with
            distribution_type := ncaDistributionTypeDownload } } := by
      unfold ncaSetDownloadDistributionType
      rw [if_neg]
      intro hcon
      rcases hcon with h | h | h
      · omega
      · omega
      · exact hdist h
    constructor
    · rw [hstep]
      intro heq
      exact hdist (congrArg NcaHeader.distribution_type heq).symm
    · intro hne
      rw [hstep] at hne ⊢
      simp only [ncaIsHeaderDirty, ne_eq, decide_eq_true_eq]
      dsimp only at hne ⊢
      rw [hclean]
      exact hne
  · intro ctx' heq hra htk hrid
    have hstep : ∃ ea, ctx' = { ctx with
        decrypted_key_area := ctx.decrypted_key_area.set 2 ctx.titlekey,
        header := { ctx.header with rights_id := 0, encrypted_key_area := ea },
        rights_id_available := false } := by
      unfold ncaRemoveTitleKeyCrypto at heq
      split at heq
      · exact absurd heq (by simp)
      · rw [if_neg (by simp [hra, htk])] at heq
        dsimp only at heq
        split at heq
        · exact absurd heq (by simp)
        · rename_i ea hea
          exact ⟨ea, (Option.some.injEq _ _).mp heq.symm⟩
    obtain ⟨ea, hctx'⟩ := hstep
    refine ⟨?_, ?_, ?_⟩
    · rw [hctx']
      intro hh
      exact hrid (congrArg NcaHeader.rights_id hh).symm
    · rw [hctx']
    · intro hne
      simp only [ncaIsHeaderDirty, ne_eq, decide_eq_true_eq]
      rw [hctx']
      dsimp only
      rw [hclean]
      intro hh
      exact hne (by rw [hctx']; exact hh)
  · intro io s d ds doff integrity r hgen
    constructor
    · intro hl hh
      apply hl
      have h2 := congrArg NcaHeader.fs_header_hash hh
      simp only [ncaStoreFsHeaderHash] at h2
      exact h2
    · intro hcol
      simp only [ncaIsHeaderDirty, ne_eq, decide_eq_true_eq]
      dsimp only [ncaStoreFsHeaderHash] at hcol ⊢
      rw [hclean]
      exact hcol
  · intro ctx2 hsz hd
    unfold ncaEncryptHeader
    rw [if_neg hsz, if_neg]
    rw [hd]
    simp

/-- C9 witness: the amended theorem applied to the clean concrete context
`ctx9`, with every branch exercised non-vacuously — the distribution type
actually changes (1 to 0), the populated rights id (5) is actually wiped,
a concrete patch generation actually succeeds and stores a changed
fs-header-hash slot, and the resulting dirty headers make the encrypt
perform the re-encryption. -/
theorem header_dirty_mutations_witness :
    ncaIsHeaderDirty co9 (ncaUpdateContentIdAndHash ctx9 77) = false ∧
    ncaEncryptHeader co9 (ncaUpdateContentIdAndHash ctx9 77) =
      some (ncaUpdateContentIdAndHash ctx9 77) ∧
    (ncaSetDownloadDistributionType ctx9).header ≠ ctx9.header ∧
    ncaIsHeaderDirty co9 (ncaSetDownloadDistributionType ctx9) = true ∧
    ctx9r.header ≠ ctx9.header ∧
    ncaIsHeaderDirty co9 ctx9r = true ∧
    (∃ r : GenPatchResult Nat,
      ncaGenerateHashDataPatch co9 c10io ctx9 s9 (fun _ => 1) 16 0 false = some r ∧
      ncaIsHeaderDirty co9 (ncaStoreFsHeaderHash ctx9 s9.section_num
        r.fs_header_hash) = true) ∧
    ncaEncryptHeader co9 (ncaSetDownloadDistributionType ctx9) =
      ncaEncryptHeaderCompute co9 (ncaSetDownloadDistributionType ctx9) := by
  have T := header_dirty_mutations co9 ctx9 77 (by decide)
  have hremove : ncaRemoveTitleKeyCrypto co9 ctx9 = some ctx9r := by decide
  refine ⟨T.1.2.1, T.1.2.2 (by decide), ?_, ?_, ?_, ?_, ?_, ?_⟩
  · exact (T.2.1 (by decide) (by decide) (by decide)).1
  · exact (T.2.1 (by decide) (by decide) (by decide)).2 (by decide)
  · exact (T.2.2.1 ctx9r hremove rfl rfl (by decide)).1
  · exact (T.2.2.1 ctx9r hremove rfl rfl (by decide)).2.2 (by decide)
  · exact ⟨_, rfl, (T.2.2.2.1 c10io s9 (fun _ => 1) 16 0 false _ rfl).2
      (show co9.sha256Header (ncaStoreFsHeaderHash ctx9 s9.section_num 1).header ≠
        co9.sha256Header ctx9.header by decide)⟩
  · exact T.2.2.2.2 (ncaSetDownloadDistributionType ctx9) (by decide)
      ((T.2.1 (by decide) (by decide) (by decide)).2 (by decide))

end Nca
